import Mathlib

/-!
Shallow embedding of the emotion-scoring and retrieval pipeline of the
movie-corpus project (files `Top_250_crawler.py` and
`emotion_movie_recommender.py`), together with theorems settling the
specification claims about it.

Numbers are modelled as exact rationals (`ℚ`); Python text is modelled as
`List Char`.  Python dictionaries that only ever hold positive values are
modelled as score functions `String → ℚ` (presence of a key corresponds to a
positive value, which is an invariant of the source: no strategy ever inserts
a non-positive value).  Ordered dictionaries whose entry order matters are
modelled as association lists.
-/

/-! ## Text utilities

`lowerText` models Python `str.lower` on the character sets the program
uses (ASCII letters and CJK text; CJK characters are unaffected by
lowercasing).  `hasSub` models the Python substring test `pat in hay`;
`countSub` models `hay.count(pat)` (non-overlapping occurrences, scanned
left to right); `countWord` models `len(re.findall(r'\b' + pat + r'\b', hay))`
for a pattern made of word characters, with the Python `re` notion of word
character approximated as ASCII alphanumerics, underscore, and any
non-ASCII character (which covers the CJK keywords of the lexicons). -/

def asciiLower (c : Char) : Char :=
  if 65 ≤ c.toNat ∧ c.toNat ≤ 90 then Char.ofNat (c.toNat + 32) else c

def lowerText (s : List Char) : List Char := s.map asciiLower

def hasSub : List Char → List Char → Bool
  | pat, [] => pat.isEmpty
  | pat, c :: rest => pat.isPrefixOf (c :: rest) || hasSub pat rest

def countSubAux (pat : List Char) : ℕ → List Char → ℕ
  | 0, _ => 0
  | _ + 1, [] => 0
  | fuel + 1, c :: rest =>
    if pat.isPrefixOf (c :: rest) then
      1 + countSubAux pat fuel ((c :: rest).drop pat.length)
    else
      countSubAux pat fuel rest

def countSub (pat hay : List Char) : ℕ :=
  if pat.isEmpty then 0 else countSubAux pat hay.length hay

def isWordChar (c : Char) : Bool :=
  (48 ≤ c.toNat && c.toNat ≤ 57) || (65 ≤ c.toNat && c.toNat ≤ 90) ||
    (97 ≤ c.toNat && c.toNat ≤ 122) || c.toNat == 95 || 128 ≤ c.toNat

def boundaryBefore : Option Char → Bool
  | none => true
  | some c => !(isWordChar c)

def boundaryAfter : List Char → Bool
  | [] => true
  | c :: _ => !(isWordChar c)

def countWordAux (pat : List Char) : ℕ → Option Char → List Char → ℕ
  | 0, _, _ => 0
  | _ + 1, _, [] => 0
  | fuel + 1, prev, c :: rest =>
    if boundaryBefore prev && pat.isPrefixOf (c :: rest) &&
        boundaryAfter ((c :: rest).drop pat.length) then
      1 + countWordAux pat fuel pat.getLast? ((c :: rest).drop pat.length)
    else
      countWordAux pat fuel (some c) rest

def countWord (pat hay : List Char) : ℕ :=
  if pat.isEmpty then 0 else countWordAux pat hay.length none hay

/-! ## The crawler's emotion lexicons (from `TMDBTopRatedCrawler.__init__`
and `fallback_emotion_analysis`) -/

def emotionCategories : List String :=
  ["joy", "sadness", "anger", "fear", "love", "hope",
   "loneliness", "inspiration", "tension", "peace"]

def emotionLexicon : List (String × List String) := [
  ("joy", ["happy", "joy", "fun", "funny", "laughter", "smile", "cheerful",
           "delight", "euphoria", "bliss", "elation", "glee",
           "喜剧", "欢乐", "开心", "愉快"]),
  ("sadness", ["sad", "sadness", "grief", "sorrow", "melancholy", "depression",
               "tear", "cry", "mourn", "heartbreak", "despair", "misery",
               "悲剧", "悲伤", "难过", "忧郁"]),
  ("anger", ["anger", "angry", "rage", "fury", "wrath", "outrage", "frustration",
             "resentment", "hostility", "irritation", "annoyance",
             "愤怒", "生气", "怒火"]),
  ("fear", ["fear", "scary", "terror", "horror", "dread", "panic", "anxiety",
            "fright", "apprehension", "trepidation", "phobia",
            "恐惧", "恐怖", "害怕"]),
  ("love", ["love", "romance", "passion", "affection", "adore", "cherish",
            "devotion", "intimacy", "tenderness", "fondness", "infatuation",
            "爱情", "浪漫", "温馨", "甜蜜"]),
  ("hope", ["hope", "hopeful", "optimism", "faith", "confidence", "expectation",
            "aspiration", "dream", "wish", "anticipation",
            "希望", "梦想", "期待"]),
  ("loneliness", ["lonely", "loneliness", "isolated", "solitude", "alone",
                  "abandoned", "desolate", "secluded", "forsaken",
                  "孤独", "孤单", "寂寞"]),
  ("inspiration", ["inspire", "inspiring", "motivation", "encouraging",
                   "uplifting", "empowering", "moving", "touching",
                   "励志", "鼓舞", "激励"]),
  ("tension", ["tense", "tension", "suspense", "thrilling", "nerve-racking",
               "nail-biting", "edge-of-seat", "anxious", "stressful",
               "紧张", "悬疑", "惊悚"]),
  ("peace", ["peace", "peaceful", "calm", "serene", "tranquil", "relaxed",
             "quiet", "soothing", "placid", "composed",
             "平静", "安宁", "宁静"])]

def extendedEmotionLexicon : List (String × List String) := [
  ("joy", ["happy", "joy", "fun", "funny", "laughter", "smile", "cheerful",
           "delight", "euphoria", "bliss", "elation", "glee", "comic", "humor",
           "lighthearted", "喜剧", "欢乐", "开心", "愉快", "搞笑", "幽默"]),
  ("sadness", ["sad", "sadness", "grief", "sorrow", "melancholy", "depression",
               "tear", "cry", "mourn", "heartbreak", "despair", "misery", "tragedy",
               "loss", "death", "dying", "grave", "funeral", "悲剧", "悲伤", "难过"]),
  ("anger", ["anger", "angry", "rage", "fury", "wrath", "outrage", "frustration",
             "resentment", "hostility", "irritation", "annoyance", "violence",
             "fight", "war", "conflict", "battle", "愤怒", "生气", "怒火", "暴力"]),
  ("fear", ["fear", "scary", "terror", "horror", "dread", "panic", "anxiety",
            "fright", "apprehension", "trepidation", "phobia", "monster",
            "ghost", "haunted", "supernatural", "恐惧", "恐怖", "害怕", "惊吓"]),
  ("love", ["love", "romance", "passion", "affection", "adore", "cherish",
            "devotion", "intimacy", "tenderness", "fondness", "infatuation",
            "relationship", "couple", "marriage", "wedding", "爱情", "浪漫", "温馨"]),
  ("hope", ["hope", "hopeful", "optimism", "faith", "confidence", "expectation",
            "aspiration", "dream", "wish", "anticipation", "future", "better",
            "improve", "recover", "heal", "希望", "梦想", "期待", "信念"]),
  ("loneliness", ["lonely", "loneliness", "isolated", "solitude", "alone",
                  "abandoned", "desolate", "secluded", "forsaken", "孤独", "孤单"]),
  ("tension", ["tense", "tension", "suspense", "thrilling", "nerve-racking",
               "nail-biting", "edge-of-seat", "anxious", "stressful", "紧张", "悬疑"]),
  ("peace", ["peace", "peaceful", "calm", "serene", "tranquil", "relaxed",
             "quiet", "soothing", "placid", "composed", "平静", "安宁", "宁静"]),
  ("inspiration", ["inspire", "inspiring", "motivation", "encouraging",
                   "uplifting", "empowering", "moving", "touching", "励志", "鼓舞"])]

def genreEmotionMap : List (String × String) := [
  ("喜剧", "joy"), ("喜剧片", "joy"), ("Comedy", "joy"),
  ("剧情", "sadness"), ("剧情片", "sadness"), ("Drama", "sadness"),
  ("恐怖", "fear"), ("恐怖片", "fear"), ("Horror", "fear"),
  ("爱情", "love"), ("爱情片", "love"), ("Romance", "love"),
  ("科幻", "hope"), ("科幻片", "hope"), ("Science Fiction", "hope"),
  ("惊悚", "tension"), ("惊悚片", "tension"), ("Thriller", "tension"),
  ("动作", "tension"), ("动作片", "tension"), ("Action", "tension"),
  ("冒险", "joy"), ("冒险片", "joy"), ("Adventure", "joy"),
  ("动画", "joy"), ("动画片", "joy"), ("Animation", "joy"),
  ("家庭", "joy"), ("家庭片", "joy"), ("Family", "joy"),
  ("战争", "fear"), ("战争片", "fear"), ("War", "fear"),
  ("犯罪", "anger"), ("犯罪片", "anger"), ("Crime", "anger"),
  ("悬疑", "tension"), ("悬疑片", "tension"), ("Mystery", "tension")]

def knownMovieEmotions : List (String × List (String × ℚ)) := [
  ("教父", [("tension", 3), ("anger", 2), ("sadness", 2)]),
  ("教父2", [("tension", 3), ("anger", 2), ("sadness", 3)]),
  ("辛德勒的名单", [("sadness", 4), ("hope", 2), ("inspiration", 3)]),
  ("肖申克的救赎", [("hope", 4), ("sadness", 2), ("inspiration", 3)]),
  ("盗梦空间", [("tension", 3), ("hope", 2), ("fear", 1)]),
  ("阿甘正传", [("hope", 3), ("joy", 2), ("inspiration", 3)]),
  ("泰坦尼克号", [("love", 4), ("sadness", 3), ("fear", 2)]),
  ("美丽人生", [("hope", 3), ("joy", 2), ("sadness", 3)]),
  ("钢琴家", [("sadness", 4), ("fear", 3), ("hope", 2)]),
  ("拯救大兵瑞恩", [("fear", 3), ("anger", 2), ("hope", 2)]),
  ("指环王", [("hope", 3), ("joy", 2), ("tension", 2)]),
  ("哈利波特", [("joy", 3), ("fear", 2), ("hope", 2)]),
  ("星球大战", [("hope", 3), ("joy", 2), ("tension", 2)]),
  ("黑客帝国", [("tension", 3), ("hope", 2), ("fear", 1)]),
  ("沉默的羔羊", [("fear", 4), ("tension", 3), ("anger", 1)]),
  ("低俗小说", [("joy", 3), ("tension", 2), ("anger", 1)]),
  ("飞越疯人院", [("hope", 3), ("sadness", 2), ("anger", 2)]),
  ("闪灵", [("fear", 4), ("tension", 3), ("anger", 1)]),
  ("公民凯恩", [("sadness", 3), ("anger", 2), ("hope", 1)]),
  ("七武士", [("tension", 3), ("hope", 2), ("sadness", 2)])]

/-! ## The primary scorer (`analyze_movie_emotion`, step 1) -/

def spaceStr : String := " "

def scoreBlob (overview tagline : String) (keywords : List String) : List Char :=
  lowerText (tagline ++ spaceStr ++ overview ++ spaceStr ++
    String.intercalate spaceStr keywords).data

def keywordMatchScore (text : List Char) (w : String) : ℕ :=
  if w.data.length ≤ 3 then countWord w.data text
  else countSub w.data text * (if 4 < w.data.length then 2 else 1)

def lexiconWords (e : String) : List String := (emotionLexicon.lookup e).getD []

def primaryScore (text : List Char) (e : String) : ℚ :=
  (((lexiconWords e).map (keywordMatchScore text)).sum : ℕ)

def isEmptyScores (s : String → ℚ) : Bool :=
  emotionCategories.all (fun e => s e == 0)

/-! ## The fallback chain (`fallback_emotion_analysis`) -/

def extendedWords (e : String) : List String :=
  (extendedEmotionLexicon.lookup e).getD []

def extendedScoreOn (titleText : List Char) (e : String) : ℚ :=
  (((extendedWords e).map
    (fun w => if hasSub w.data titleText then (if 4 < w.data.length then (2:ℚ) else 1) else 0)).sum)

def genreScoreOn (genres : List String) (e : String) : ℚ :=
  2 * ((genres.filter (fun g => genreEmotionMap.lookup g == some e)).length : ℚ)

def knownBonusOn (overviewLower : List Char) (e : String) : ℚ :=
  match knownMovieEmotions.find? (fun kv => hasSub kv.1.data overviewLower) with
  | some kv => (kv.2.lookup e).getD 0
  | none => 0

def listScores (l : List (String × ℚ)) : String → ℚ :=
  fun e => (l.lookup e).getD 0

def strategy4On (overview tagline : String) (titleText : List Char) : String → ℚ :=
  if overview.data.length + tagline.data.length < 50 then
    listScores [("hope", 2), ("inspiration", 1), ("joy", 1)]
  else if (["war", "battle", "fight", "战争", "战斗"] : List String).any
      (fun w => hasSub w.data titleText) then
    listScores [("fear", 3), ("tension", 2), ("anger", 1)]
  else if (["love", "romance", "爱", "爱情"] : List String).any
      (fun w => hasSub w.data titleText) then
    listScores [("love", 4), ("joy", 2), ("hope", 1)]
  else if (["death", "die", "dead", "死亡", "死去"] : List String).any
      (fun w => hasSub w.data titleText) then
    listScores [("sadness", 4), ("hope", 1), ("inspiration", 1)]
  else
    listScores [("hope", 2), ("inspiration", 2), ("joy", 1), ("sadness", 1)]

/-- The `emotion_scores` dictionary of `fallback_emotion_analysis` after
strategy 1 (the expanded lexicon over tagline + overview). -/
def fallbackS1 (overview tagline : String) : String → ℚ :=
  extendedScoreOn (lowerText (tagline ++ spaceStr ++ overview).data)

/-- The dictionary after strategy 2: the genre table fires only when there
are genres and strategy 1 produced nothing. -/
def fallbackS2 (overview tagline : String) (genres : List String) : String → ℚ :=
  if !genres.isEmpty && isEmptyScores (fallbackS1 overview tagline) then
    fun e => fallbackS1 overview tagline e + genreScoreOn genres e
  else fallbackS1 overview tagline

/-- The dictionary after strategy 3: the known-movie override table is
added unconditionally on top of whatever is already there. -/
def fallbackS3 (overview tagline : String) (genres : List String) : String → ℚ :=
  fun e => fallbackS2 overview tagline genres e + knownBonusOn (lowerText overview.data) e

/-- The fallback scorer `fallback_emotion_analysis`.  The accumulated Python
dictionary `emotion_scores` is modelled as a score function; the `keywords`
parameter is present but, as in the source, unused.  Strategy 4 (the
heuristics and default distribution) runs only if strategies 1–3 all
produced nothing. -/
def fallbackEmotionScores (overview tagline : String)
    (keywords genres : List String) : String → ℚ :=
  if isEmptyScores (fallbackS3 overview tagline genres) then
    strategy4On overview tagline (lowerText (tagline ++ spaceStr ++ overview).data)
  else fallbackS3 overview tagline genres

/-! ## Rounding (Python `round(x, 3)`, modelled with ties rounding up).

Python rounds floats half-to-even on the binary representation; the claims
settled here never depend on exact-tie behaviour, and for non-tie values the
two agree. -/

def roundQ (q : ℚ) : ℤ := (2 * q.num + (q.den : ℤ)) / ((2 * q.den : ℕ) : ℤ)

def round3 (q : ℚ) : ℚ := ((roundQ (1000 * q) : ℤ) : ℚ) / 1000

/-! ## Normalization, dominant emotions, mood tags, and the full analyzer -/

def totalScore (s : String → ℚ) : ℚ := (emotionCategories.map s).sum

/-- Normalization step of `analyze_movie_emotion`: each raw score is divided
by the total and rounded to three decimals.  The resulting profile is an
association list whose keys are the categories with positive raw score, in
canonical category order (for the primary path this coincides with Python
dict insertion order; for fallback-produced dictionaries Python's insertion
order can differ, which affects nothing but tie order in the later stable
sorts, unused by the claims). -/
def normalizedProfile (s : String → ℚ) : List (String × ℚ) :=
  if 0 < totalScore s then
    (emotionCategories.filter (fun e => decide (0 < s e))).map
      (fun e => (e, round3 (s e / totalScore s)))
  else []

def rankRel {α : Type} (key : α → ℚ) (a b : ℕ × α) : Prop :=
  key b.2 < key a.2 ∨ (key a.2 = key b.2 ∧ a.1 ≤ b.1)

instance rankRelDecidable {α : Type} (key : α → ℚ) : DecidableRel (rankRel key) :=
  fun a b => by unfold rankRel; infer_instance

instance rankRelTotal {α : Type} (key : α → ℚ) : IsTotal (ℕ × α) (rankRel key) := by
  constructor
  intro a b
  unfold rankRel
  rcases lt_trichotomy (key a.2) (key b.2) with h | h | h
  · exact Or.inr (Or.inl h)
  · rcases Nat.le_total a.1 b.1 with h2 | h2
    · exact Or.inl (Or.inr ⟨h, h2⟩)
    · exact Or.inr (Or.inr ⟨h.symm, h2⟩)
  · exact Or.inl (Or.inl h)

instance rankRelTrans {α : Type} (key : α → ℚ) : IsTrans (ℕ × α) (rankRel key) := by
  constructor
  intro a b c hab hbc
  unfold rankRel at *
  rcases hab with h1 | ⟨h1, h1i⟩
  · rcases hbc with h2 | ⟨h2, _⟩
    · exact Or.inl (h2.trans h1)
    · exact Or.inl (h2 ▸ h1)
  · rcases hbc with h2 | ⟨h2, h2i⟩
    · exact Or.inl (h1.symm ▸ h2)
    · exact Or.inr ⟨h1.trans h2, h1i.trans h2i⟩

/-- Stable sort in descending order of `key`, ties broken by original
position; this is the unique result of Python's stable
`sorted(l, key=key, reverse=True)`. -/
def stableSortDesc {α : Type} (key : α → ℚ) (l : List α) : List α :=
  ((l.enum).insertionSort (rankRel key)).map Prod.snd

/-- Step 4 of `analyze_movie_emotion`: top three categories of the profile
by normalized score (stable descending sort), kept only above 0.1. -/
def dominantEmotionsOf (profile : List (String × ℚ)) : List String :=
  (((stableSortDesc (fun p => p.2) profile).take 3).filter
    (fun p => decide ((1:ℚ)/10 < p.2))).map Prod.fst

/-! ## Mood tags (`generate_mood_tags`) -/

def genericTags : List String := ["情感丰富", "引人深思", "值得一看"]

def profileHas (profile : List (String × ℚ)) (k : String) : Bool :=
  profile.any (fun p => p.1 == k)

def profileGet (profile : List (String × ℚ)) (k : String) : ℚ :=
  (profile.lookup k).getD 0

def baseTags (profile : List (String × ℚ)) : List String :=
  profile.filterMap (fun p =>
    if (15:ℚ)/100 ≤ p.2 then some ((("非常"):String) ++ p.1)
    else if (5:ℚ)/100 ≤ p.2 then some ((("有些"):String) ++ p.1)
    else none)

def comboTags (profile : List (String × ℚ)) : List String :=
  (if profileHas profile ("joy") && profileHas profile ("love") &&
      decide ((1:ℚ)/10 < profileGet profile ("joy")) &&
      decide ((1:ℚ)/10 < profileGet profile ("love")) then ["温暖治愈"] else []) ++
  (if profileHas profile ("sadness") && profileHas profile ("hope") &&
      decide ((1:ℚ)/10 < profileGet profile ("sadness")) &&
      decide ((5:ℚ)/100 < profileGet profile ("hope")) then ["悲伤但充满希望"] else []) ++
  (if profileHas profile ("fear") &&
      decide ((15:ℚ)/100 < profileGet profile ("fear")) then ["紧张刺激"] else []) ++
  (if profileHas profile ("peace") &&
      decide ((1:ℚ)/10 < profileGet profile ("peace")) then ["心灵平静"] else []) ++
  (if profileHas profile ("inspiration") &&
      decide ((1:ℚ)/10 < profileGet profile ("inspiration")) then ["励志感人"] else [])

/-- Python `max(items, key=lambda x: x[1])[0]`: first maximal entry. -/
def maxEmotion : List (String × ℚ) → String
  | [] => ""
  | p :: ps => (ps.foldl (fun best q => if best.2 < q.2 then q else best) p).1

def fillTags (profile : List (String × ℚ)) (tags : List String) : List String :=
  if tags.length < 2 then
    if profile.isEmpty then tags
    else if maxEmotion profile == ("joy") || maxEmotion profile == ("love") then
      tags ++ ["情感丰富", "值得推荐"]
    else if maxEmotion profile == ("sadness") || maxEmotion profile == ("fear") ||
        maxEmotion profile == ("tension") then
      tags ++ ["引人深思", "情感强烈"]
    else tags ++ ["情感真挚", "值得一看"]
  else tags

/-- `generate_mood_tags`.  Python's final `list(set(tags))[:6]` iterates the
set in an unspecified (hash) order; it is modelled by `List.dedup` followed
by `take 6`.  The claims about this function (length and absence of
duplicates) do not depend on the order chosen. -/
def generate_mood_tags (profile : List (String × ℚ)) : List String :=
  if profile.isEmpty then genericTags
  else ((fillTags profile (baseTags profile ++ comboTags profile)).dedup).take 6

/-! ## The full analyzer (`analyze_movie_emotion`) -/

structure EmotionAnalysis where
  emotion_profile : List (String × ℚ)
  dominant_emotions : List String
  mood_tags : List String
  emotional_complexity : ℕ
deriving DecidableEq, Repr

def primaryScores (overview tagline : String) (keywords : List String) : String → ℚ :=
  primaryScore (scoreBlob overview tagline keywords)

def emotionScoresOf (overview tagline : String)
    (keywords genres : List String) : String → ℚ :=
  if isEmptyScores (primaryScores overview tagline keywords) then
    fallbackEmotionScores overview tagline keywords genres
  else primaryScores overview tagline keywords

def analyze_movie_emotion (overview tagline : String)
    (keywords genres : List String) : EmotionAnalysis :=
  { emotion_profile := normalizedProfile (emotionScoresOf overview tagline keywords genres)
    dominant_emotions :=
      dominantEmotionsOf (normalizedProfile (emotionScoresOf overview tagline keywords genres))
    mood_tags :=
      generate_mood_tags (normalizedProfile (emotionScoresOf overview tagline keywords genres))
    emotional_complexity :=
      (normalizedProfile (emotionScoresOf overview tagline keywords genres)).length }

/-! ## The JSON loader's profile fix-up (`load_movies_from_json`)

The loader densifies the stored `emotion_profile` over the fixed ten
categories (missing ones filled with `0.0`) and, when the resulting total is
positive, renormalizes each value as `round(v / total, 3)`. -/

def zeroFillProfile (p : List (String × ℚ)) : List (String × ℚ) :=
  emotionCategories.map (fun e => (e, (p.lookup e).getD 0))

def zeroFillTotal (p : List (String × ℚ)) : ℚ :=
  ((zeroFillProfile p).map Prod.snd).sum

def load_fixed_profile (p : List (String × ℚ)) : List (String × ℚ) :=
  if 0 < zeroFillTotal p then
    (zeroFillProfile p).map (fun q => (q.1, round3 (q.2 / zeroFillTotal p)))
  else zeroFillProfile p

/-! ## The recommender (`emotion_movie_recommender.py`)

A retrieval-side record carries its id and stored emotion profile.  The
text-embedding model is external; the semantic similarity of the query to
record `i` is therefore an input `semSims : List ℚ` rather than a computed
value, and the emotion cosine similarity is an input function
`cos : List ℚ → List ℚ → ℚ` applied to (target vector, record vector).
The source L2-normalizes the target vector before calling sklearn's
`cosine_similarity`, which renormalizes both arguments; since cosine is
scale-invariant this pre-scaling is absorbed into `cos`, and the all-zero
test on the normalized vector is equivalent to the one on the raw vector. -/

structure RMovie where
  id : ℕ
  emotion_profile : List (String × ℚ)
deriving DecidableEq, Repr, Inhabited

/-- `fixed_emotion_labels` as re-declared by the recommender (same ten
names, same order as the crawler's lexicon). -/
def fixed_emotion_labels : List String :=
  ["joy", "sadness", "anger", "fear", "love",
   "hope", "loneliness", "inspiration", "tension", "peace"]

/-- The bilingual `emotion_mapping` alias table of the recommender. -/
def emotion_mapping : List (String × String) := [
  ("joy", "joy"), ("sadness", "sadness"), ("anger", "anger"), ("fear", "fear"),
  ("love", "love"), ("hope", "hope"), ("loneliness", "loneliness"),
  ("inspiration", "inspiration"), ("tension", "tension"), ("peace", "peace"),
  ("快乐", "joy"), ("开心", "joy"), ("高兴", "joy"), ("愉快", "joy"), ("欢乐", "joy"),
  ("悲伤", "sadness"), ("难过", "sadness"), ("伤心", "sadness"), ("忧郁", "sadness"),
  ("愤怒", "anger"), ("生气", "anger"), ("怒火", "anger"),
  ("恐惧", "fear"), ("害怕", "fear"), ("恐怖", "fear"), ("惊吓", "fear"),
  ("爱", "love"), ("爱情", "love"), ("浪漫", "love"), ("甜蜜", "love"),
  ("希望", "hope"), ("期望", "hope"), ("期待", "hope"), ("梦想", "hope"),
  ("孤独", "loneliness"), ("孤单", "loneliness"), ("寂寞", "loneliness"),
  ("励志", "inspiration"), ("鼓舞", "inspiration"), ("激励", "inspiration"),
  ("紧张", "tension"), ("刺激", "tension"), ("悬疑", "tension"), ("惊悚", "tension"),
  ("平静", "peace"), ("安宁", "peace"), ("宁静", "peace"), ("祥和", "peace")]

def clamp01 (q : ℚ) : ℚ := max 0 (min 1 q)

def mapLabel (e : String) : String := (emotion_mapping.lookup e).getD e

/-- Association-list update with Python dict semantics: overwrite an
existing key in place, otherwise append at the end. -/
def setKV {κ : Type} [DecidableEq κ] (m : List (κ × ℚ)) (k : κ) (v : ℚ) :
    List (κ × ℚ) :=
  if m.any (fun p => p.1 = k) then
    m.map (fun p => if p.1 = k then (k, v) else p)
  else m ++ [(k, v)]

def getKV {κ : Type} [DecidableEq κ] (m : List (κ × ℚ)) (k : κ) : ℚ :=
  (m.lookup k).getD 0

/-- The conversion loop at the head of `emotion_search`: each queried label
is sent through the alias table; labels landing in the fixed ten-label
space are kept with clamped intensity, the others are dropped with a
warning.  The first component is the `converted_emotions` dict, the second
the list of warned-about labels. -/
def convertTargetLoop (target : List (String × ℚ)) :
    List (String × ℚ) × List String :=
  target.foldl (fun acc p =>
    if fixed_emotion_labels.contains (mapLabel p.1) then
      (setKV acc.1 (mapLabel p.1) (clamp01 p.2), acc.2)
    else (acc.1, acc.2 ++ [p.1])) ([], [])

def droppedLabels (target : List (String × ℚ)) : List String :=
  (convertTargetLoop target).2

def targetVector (target : List (String × ℚ)) : List ℚ :=
  fixed_emotion_labels.map (fun l => getKV (convertTargetLoop target).1 l)

/-- A record's row of the emotion-vector matrix
(`extract_emotion_vectors`): the fixed labels in declaration order, each
value read from the profile (default `0.0`) and clamped into `[0, 1]`. -/
def movieVector (m : RMovie) : List ℚ :=
  fixed_emotion_labels.map (fun l => clamp01 (getKV m.emotion_profile l))

/-- `extract_emotion_vectors`: one row per record. -/
def extract_emotion_vectors (movies : List RMovie) : List (List ℚ) :=
  movies.map movieVector

def ascRankRel (a b : ℕ × ℚ) : Prop :=
  a.2 < b.2 ∨ (a.2 = b.2 ∧ a.1 ≤ b.1)

instance ascRankRelDecidable : DecidableRel ascRankRel :=
  fun a b => by unfold ascRankRel; infer_instance

instance ascRankRelTotal : IsTotal (ℕ × ℚ) ascRankRel := by
  constructor
  intro a b
  unfold ascRankRel
  rcases lt_trichotomy a.2 b.2 with h | h | h
  · exact Or.inl (Or.inl h)
  · rcases Nat.le_total a.1 b.1 with h2 | h2
    · exact Or.inl (Or.inr ⟨h, h2⟩)
    · exact Or.inr (Or.inr ⟨h.symm, h2⟩)
  · exact Or.inr (Or.inl h)

instance ascRankRelTrans : IsTrans (ℕ × ℚ) ascRankRel := by
  constructor
  intro a b c hab hbc
  unfold ascRankRel at *
  rcases hab with h1 | ⟨h1, h1i⟩
  · rcases hbc with h2 | ⟨h2, _⟩
    · exact Or.inl (h1.trans h2)
    · exact Or.inl (h2 ▸ h1)
  · rcases hbc with h2 | ⟨h2, h2i⟩
    · exact Or.inl (h1 ▸ h2)
    · exact Or.inr ⟨h1.trans h2, h1i.trans h2i⟩

/-- `numpy.argsort` on the similarity array, modelled as a stable ascending
sort of the indices (numpy's default quicksort leaves tie order formally
unspecified; on the small arrays involved it behaves as the stable sort). -/
def argsortAsc (sims : List ℚ) : List ℕ :=
  ((sims.enum).insertionSort ascRankRel).map Prod.fst

/-- Python's `l[-k:]`: for `k = 0` the slice is `l[0:]`, i.e. the whole
list, not the empty one. -/
def lastSlice {α : Type} (l : List α) (k : ℕ) : List α :=
  if k = 0 then l else l.drop (l.length - k)

/-- The per-record cosine similarity array of `emotion_search`. -/
def emotionSims (cos : List ℚ → List ℚ → ℚ) (movies : List RMovie)
    (target : List (String × ℚ)) : List ℚ :=
  movies.map (fun m => cos (targetVector target) (movieVector m))

/-- `emotion_search`: convert the target labels, bail out with `[]` on an
all-zero target vector, otherwise rank every record by `cos` similarity
with numpy's `argsort()[-top_k:][::-1]`. -/
def emotion_search (cos : List ℚ → List ℚ → ℚ) (movies : List RMovie)
    (target : List (String × ℚ)) (topk : ℕ) : List (RMovie × ℚ) :=
  if (targetVector target).all (fun x => x == 0) then []
  else
    ((lastSlice (argsortAsc (emotionSims cos movies target))
        (min topk movies.length)).reverse).map
      (fun i => (movies.getD i default, (emotionSims cos movies target).getD i 0))

/-- `torch.topk` on the semantic similarity scores, modelled as the first
`k` positions of a stable descending sort (ties at equal scores keep the
lower index first). -/
def stableTopkDesc (sims : List ℚ) (k : ℕ) : List ℕ :=
  (((sims.enum).insertionSort (rankRel id)).map Prod.fst).take k

/-- `semantic_search`: the query/record similarities `semSims` come from the
external embedding model; the function ranks and truncates them. -/
def semantic_search (semSims : List ℚ) (movies : List RMovie) (topk : ℕ) :
    List (RMovie × ℚ) :=
  (stableTopkDesc semSims (min topk movies.length)).map
    (fun i => (movies.getD i default, semSims.getD i 0))

/-- The per-id score dictionaries built inside `hybrid_search` from the two
full result lists. -/
def scoreDict (res : List (RMovie × ℚ)) : List (ℕ × ℚ) :=
  res.foldl (fun d p => setKV d p.1.id p.2) []

/-- The `combined_scores` dictionary of `hybrid_search`: one entry per id,
in first-occurrence order, combining the two per-id score dictionaries as
`semantic_score * semantic_weight + emotion_score * emotion_weight`
(missing dictionary entries default to 0). -/
def hybridCombined (semSims : List ℚ) (cos : List ℚ → List ℚ → ℚ)
    (movies : List RMovie) (target : List (String × ℚ))
    (semantic_weight emotion_weight : ℚ) : List (ℕ × ℚ) :=
  movies.foldl (fun d m =>
    setKV d m.id
      (getKV (scoreDict (semantic_search semSims movies movies.length)) m.id *
          semantic_weight +
        getKV (scoreDict (emotion_search cos movies target movies.length)) m.id *
          emotion_weight)) []

/-- `hybrid_search`: run both searches over the full record set, combine
per id, stable-sort the combined dict items by score descending, truncate
to `top_k`, and resolve each id back to the first record carrying it. -/
def hybrid_search (semSims : List ℚ) (cos : List ℚ → List ℚ → ℚ)
    (movies : List RMovie) (target : List (String × ℚ))
    (semantic_weight emotion_weight : ℚ) (topk : ℕ) : List (RMovie × ℚ) :=
  ((stableSortDesc (fun p => p.2)
      (hybridCombined semSims cos movies target semantic_weight emotion_weight)).take
    topk).filterMap (fun p =>
    (movies.find? (fun m => m.id = p.1)).map (fun m => (m, p.2)))

/-! ## Query emotion extraction and mood recommendation
(`extract_emotions_from_query`, `get_recommendation_by_mood`) -/

def queryEmotionKeywords : List (String × List String) := [
  ("joy", ["快乐", "开心", "高兴", "愉快", "欢乐", "喜悦", "搞笑", "幽默", "喜剧"]),
  ("sadness", ["悲伤", "难过", "伤心", "忧郁", "哀伤", "悲痛", "悲剧", "伤感"]),
  ("anger", ["愤怒", "生气", "气愤", "怒火", "愤慨", "恼怒", "暴力"]),
  ("fear", ["恐惧", "害怕", "恐怖", "惊吓", "惊悚", "恐慌", "可怕"]),
  ("love", ["爱", "爱情", "恋爱", "浪漫", "甜蜜", "温馨", "感人", "温暖"]),
  ("hope", ["希望", "期望", "盼望", "期待", "憧憬", "向往"]),
  ("loneliness", ["孤独", "孤单", "寂寞", "孤立", "独处", "疏离"]),
  ("inspiration", ["励志", "鼓舞", "激励", "振奋", "奋发", "向上"]),
  ("tension", ["紧张", "刺激", "悬疑", "惊险", "惊心动魄", "扣人心弦"]),
  ("peace", ["平静", "安宁", "宁静", "祥和", "安逸", "恬静"])]

/-- `keyword in query or keyword in query_lower`. -/
def queryOccurs (w : String) (query : List Char) : Bool :=
  hasSub w.data query || hasSub w.data (lowerText query)

def queryEmotionCount (query : List Char) (e : String) : ℕ :=
  (((queryEmotionKeywords.lookup e).getD []).filter
    (fun w => queryOccurs w query)).length

def queryCounts (query : List Char) : List (String × ℕ) :=
  emotionCategories.map (fun e => (e, queryEmotionCount query e))

def queryTotal (query : List Char) : ℕ :=
  ((queryCounts query).map Prod.snd).sum

/-- `extract_emotions_from_query`: keyword hit counts normalized by the
total when any keyword matched; otherwise five ordered substring-trigger
fallbacks on the raw query, then a fixed default distribution. -/
def extract_emotions_from_query (query : List Char) : List (String × ℚ) :=
  if 0 < queryTotal query then
    ((queryCounts query).filter (fun p => decide (0 < p.2))).map
      (fun p => (p.1, (p.2 : ℚ) / (queryTotal query : ℚ)))
  else if (["孤独", "寂寞", "无聊"] : List String).any (fun w => hasSub w.data query) then
    [("loneliness", 8/10), ("sadness", 2/10)]
  else if (["开心", "快乐", "高兴"] : List String).any (fun w => hasSub w.data query) then
    [("joy", 8/10), ("love", 2/10)]
  else if (["悲伤", "难过", "伤心"] : List String).any (fun w => hasSub w.data query) then
    [("sadness", 8/10), ("loneliness", 2/10)]
  else if (["紧张", "刺激", "惊悚"] : List String).any (fun w => hasSub w.data query) then
    [("tension", 8/10), ("fear", 2/10)]
  else if (["爱情", "浪漫", "甜蜜"] : List String).any (fun w => hasSub w.data query) then
    [("love", 8/10), ("joy", 2/10)]
  else
    [("joy", 3/10), ("hope", 3/10), ("inspiration", 4/10)]

/-- `get_recommendation_by_mood`: extract a target emotion mapping from the
mood text and delegate to `emotion_search`; fall back to `semantic_search`
only when the extraction comes back empty. -/
def get_recommendation_by_mood (semSims : List ℚ) (cos : List ℚ → List ℚ → ℚ)
    (movies : List RMovie) (query : List Char) (topk : ℕ) : List (RMovie × ℚ) :=
  if !(extract_emotions_from_query query).isEmpty then
    emotion_search cos movies (extract_emotions_from_query query) topk
  else semantic_search semSims movies topk

/-! ## The crawler's emotion-vector CSV (`save_emotion_vectors`)

The exported CSV's emotion columns are the alphabetically sorted union of
the categories appearing in some record's profile — not a fixed list. -/

def strLeChars : List Char → List Char → Bool
  | [], _ => true
  | _ :: _, [] => false
  | a :: as, b :: bs =>
    if a.toNat < b.toNat then true
    else if b.toNat < a.toNat then false
    else strLeChars as bs

/-- Python's `≤` on strings: lexicographic comparison of code points. -/
def strLe (a b : String) : Bool := strLeChars a.data b.data

def sortStrings (l : List String) : List String :=
  l.insertionSort (fun a b => strLe a b = true)

/-- The emotion columns of the crawler's `save_emotion_vectors` CSV:
`sorted(list(all_emotions))` where `all_emotions` is the union of the
profile keys over all records. -/
def csvEmotionColumns (profiles : List (List (String × ℚ))) : List String :=
  sortStrings ((profiles.flatMap (fun p => p.map Prod.fst)).dedup)

/-- A record's data row of that CSV: the profile value (default `0.0`) for
each sorted column. -/
def csvEmotionRow (profiles : List (List (String × ℚ)))
    (p : List (String × ℚ)) : List ℚ :=
  (csvEmotionColumns profiles).map (fun e => (p.lookup e).getD 0)

/-! ## Spec-side definitions used to state claims

`specFallbackChain` renders the specification's description of the fallback
chain (claim C1): try each strategy in order and stop at the first one that
produces any non-zero score.  It is written from the spec's words for
comparison with `fallbackEmotionScores`, which is translated from the
source. -/

def specGenreScores (genres : List String) : String → ℚ :=
  if !genres.isEmpty then genreScoreOn genres else fun _ => 0

def specFallbackChain (overview tagline : String)
    (genres : List String) : String → ℚ :=
  if !(isEmptyScores (fallbackS1 overview tagline)) then fallbackS1 overview tagline
  else if !(isEmptyScores (specGenreScores genres)) then specGenreScores genres
  else if !(isEmptyScores (knownBonusOn (lowerText overview.data))) then
    knownBonusOn (lowerText overview.data)
  else strategy4On overview tagline (lowerText (tagline ++ spaceStr ++ overview).data)

/-- Claim C5's ordering property for a result list: sorted by score
descending, with ties between equal scores broken by the records' position
in the indexed input list. -/
def tiesByInputOrder (movies : List RMovie) (res : List (RMovie × ℚ)) : Prop :=
  res.Pairwise (fun a b =>
    b.2 < a.2 ∨ (a.2 = b.2 ∧ movies.indexOf a.1 ≤ movies.indexOf b.1))

instance tiesByInputOrderDecidable (movies : List RMovie)
    (res : List (RMovie × ℚ)) : Decidable (tiesByInputOrder movies res) := by
  unfold tiesByInputOrder
  infer_instance

/-! ## Concrete instances used by witnesses and counterexamples -/

/-- A concrete similarity function usable in counterexamples: plain dot
product.  (The counterexamples below only ever compare records with equal
emotion vectors, for which every similarity function produces a tie, so
nothing depends on this choice.) -/
def dotQ (a b : List ℚ) : ℚ := (List.zipWith (fun x y => x * y) a b).sum

def cMovie0 : RMovie := { id := 0, emotion_profile := [("joy", 1)] }

def cMovie1 : RMovie := { id := 1, emotion_profile := [("joy", 1)] }

def cMovie2 : RMovie := { id := 2, emotion_profile := [("sadness", 1)] }

/-- Sum of the values of a profile. -/
def profileValuesSum (l : List (String × ℚ)) : ℚ := (l.map Prod.snd).sum

/-! # Theorems -/

/-! ## Rounding lemmas -/

theorem roundQ_eq_floor (q : ℚ) : roundQ q = ⌊q + 1/2⌋ := by
  have hd : ((q.den : ℚ)) ≠ 0 := by exact_mod_cast q.den_nz
  have h1 : q + 1/2 = (((2 * q.num + (q.den : ℤ) : ℤ)) : ℚ) / (((2 * q.den : ℕ)) : ℚ) := by
    conv_lhs => rw [← Rat.num_div_den q]
    push_cast
    field_simp
    ring
  rw [h1, Rat.floor_intCast_div_natCast]
  rfl

theorem abs_round3_sub (q : ℚ) : |round3 q - q| ≤ 1/2000 := by
  have h := roundQ_eq_floor (1000 * q)
  have h1 : (⌊1000 * q + 1/2⌋ : ℚ) ≤ 1000 * q + 1/2 := Int.floor_le _
  have h2 : 1000 * q + 1/2 < (⌊1000 * q + 1/2⌋ : ℚ) + 1 := Int.lt_floor_add_one _
  rw [round3, h, abs_le]
  constructor
  · nlinarith
  · nlinarith

theorem round3_intCast_div_thousand (m : ℤ) :
    round3 ((m : ℚ) / 1000) = (m : ℚ) / 1000 := by
  have h1 : (1000 : ℚ) * ((m : ℚ) / 1000) = (m : ℚ) := by ring
  have h2 : roundQ ((m : ℚ)) = m := by
    rw [roundQ_eq_floor]
    have hh : (⌊(1:ℚ)/2⌋ : ℤ) = 0 := by
      rw [Int.floor_eq_zero_iff]
      constructor <;> norm_num
    rw [Int.floor_int_add, hh]
    omega
  rw [round3, h1, h2]

theorem abs_sum_round3_sub (l : List ℚ) :
    |(l.map round3).sum - l.sum| ≤ l.length / 2000 := by
  induction l with
  | nil => simp
  | cons a t ih =>
    have ha := abs_round3_sub a
    have : (round3 a + (t.map round3).sum) - (a + t.sum) =
        (round3 a - a) + ((t.map round3).sum - t.sum) := by ring
    simp only [List.map_cons, List.sum_cons, List.length_cons]
    rw [this]
    calc |(round3 a - a) + ((t.map round3).sum - t.sum)|
        ≤ |round3 a - a| + |(t.map round3).sum - t.sum| := abs_add _ _
      _ ≤ 1/2000 + t.length / 2000 := add_le_add ha ih
      _ = (t.length + 1 : ℚ) / 2000 := by ring
      _ = ((t.length + 1 : ℕ) : ℚ) / 2000 := by push_cast; ring

theorem sum_map_div (l : List ℚ) (T : ℚ) :
    (l.map (fun x => x / T)).sum = l.sum / T := by
  induction l with
  | nil => simp
  | cons a t ih => simp [ih, add_div]

theorem abs_sum_round3_ratio_sub_one (l : List ℚ) (T : ℚ) (hT : T ≠ 0)
    (hsum : l.sum = T) :
    |(l.map (fun x => round3 (x / T))).sum - 1| ≤ l.length / 2000 := by
  have h1 : (l.map (fun x => round3 (x / T))) = ((l.map (fun x => x / T)).map round3) := by
    simp [List.map_map, Function.comp]
  have h2 : (l.map (fun x => x / T)).sum = 1 := by
    rw [sum_map_div, hsum, div_self hT]
  have h3 := abs_sum_round3_sub (l.map (fun x => x / T))
  rw [h2] at h3
  rw [h1]
  simpa using h3

/-! ## Generic association-list and lookup lemmas -/

theorem lookup_mem {κ : Type} [DecidableEq κ] {l : List (κ × ℚ)} {k : κ} {v : ℚ}
    (h : l.lookup k = some v) : (k, v) ∈ l := by
  induction l with
  | nil => simp [List.lookup] at h
  | cons a t ih =>
    rw [List.lookup] at h
    by_cases hk : k = a.1
    · simp [hk] at h
      subst h
      simp [hk]
    · have : (k == a.1) = false := by simp [hk]
      rw [this] at h
      simp at h
      exact List.mem_cons_of_mem _ (ih h)

theorem getKV_nonneg_of_all {κ : Type} [DecidableEq κ] (l : List (κ × ℚ)) (k : κ)
    (h : ∀ p ∈ l, 0 ≤ p.2) : 0 ≤ getKV l k := by
  unfold getKV
  cases hl : l.lookup k with
  | none => simp
  | some v =>
    simp only [Option.getD_some]
    exact h _ (lookup_mem hl)

theorem lookup_map_value {κ : Type} [DecidableEq κ] (l : List (κ × ℚ)) (f : ℚ → ℚ)
    (k : κ) : (l.map (fun q => (q.1, f q.2))).lookup k = (l.lookup k).map f := by
  induction l with
  | nil => simp
  | cons a t ih =>
    by_cases hk : k = a.1
    · simp [List.lookup, hk]
    · have hb : (k == a.1) = false := by simp [hk]
      simp only [List.map_cons, List.lookup, hb]
      exact ih

theorem lookup_map_self (cats : List String) (g : String → ℚ) (e : String)
    (h : e ∈ cats) : (cats.map (fun c => (c, g c))).lookup e = some (g e) := by
  induction cats with
  | nil => simp at h
  | cons a t ih =>
    rcases List.mem_cons.mp h with h1 | h1
    · subst h1
      simp [List.lookup]
    · by_cases hk : e = a
      · subst hk
        simp [List.lookup]
      · have hb : (e == a) = false := by simp [hk]
        simp only [List.map_cons, List.lookup, hb]
        exact ih h1

/-! ## Non-negativity of the score functions -/

theorem listScores_nonneg (l : List (String × ℚ)) (h : ∀ p ∈ l, 0 ≤ p.2)
    (e : String) : 0 ≤ listScores l e :=
  getKV_nonneg_of_all l e h

theorem strategy4On_nonneg (ov tg : String) (tt : List Char) (e : String) :
    0 ≤ strategy4On ov tg tt e := by
  unfold strategy4On
  split_ifs <;> (apply listScores_nonneg; intro p hp; fin_cases hp <;> norm_num)

theorem primaryScore_nonneg (text : List Char) (e : String) :
    0 ≤ primaryScore text e := by
  unfold primaryScore
  positivity

theorem extendedScoreOn_nonneg (tt : List Char) (e : String) :
    0 ≤ extendedScoreOn tt e := by
  unfold extendedScoreOn
  apply List.sum_nonneg
  intro x hx
  rcases List.mem_map.mp hx with ⟨w, _, hw⟩
  subst hw
  split_ifs <;> norm_num

theorem genreScoreOn_nonneg (gs : List String) (e : String) :
    0 ≤ genreScoreOn gs e := by
  unfold genreScoreOn
  positivity

unseal Rat.add Rat.mul Rat.inv in
theorem knownMovieEmotions_nonneg :
    ∀ kv ∈ knownMovieEmotions, ∀ p ∈ kv.2, 0 ≤ p.2 := by decide

theorem knownBonusOn_nonneg (ovl : List Char) (e : String) :
    0 ≤ knownBonusOn ovl e := by
  unfold knownBonusOn
  cases hf : knownMovieEmotions.find? (fun kv => hasSub kv.1.data ovl) with
  | none => exact le_refl 0
  | some kv =>
    exact getKV_nonneg_of_all kv.2 e
      (knownMovieEmotions_nonneg kv (List.mem_of_find?_eq_some hf))

theorem fallbackS1_nonneg (ov tg : String) (e : String) :
    0 ≤ fallbackS1 ov tg e :=
  extendedScoreOn_nonneg _ e

theorem fallbackS2_nonneg (ov tg : String) (gs : List String) (e : String) :
    0 ≤ fallbackS2 ov tg gs e := by
  unfold fallbackS2
  split_ifs
  · show 0 ≤ fallbackS1 ov tg e + genreScoreOn gs e
    have := fallbackS1_nonneg ov tg e
    have := genreScoreOn_nonneg gs e
    linarith
  · exact fallbackS1_nonneg ov tg e

theorem fallbackS3_nonneg (ov tg : String) (gs : List String) (e : String) :
    0 ≤ fallbackS3 ov tg gs e := by
  unfold fallbackS3
  have := fallbackS2_nonneg ov tg gs e
  have := knownBonusOn_nonneg (lowerText ov.data) e
  linarith

theorem fallbackEmotionScores_nonneg (ov tg : String) (kw gs : List String)
    (e : String) : 0 ≤ fallbackEmotionScores ov tg kw gs e := by
  unfold fallbackEmotionScores
  split_ifs
  · exact strategy4On_nonneg _ _ _ _
  · exact fallbackS3_nonneg ov tg gs e

theorem emotionScoresOf_nonneg (ov tg : String) (kw gs : List String)
    (e : String) : 0 ≤ emotionScoresOf ov tg kw gs e := by
  unfold emotionScoresOf
  split_ifs
  · exact fallbackEmotionScores_nonneg ov tg kw gs e
  · exact primaryScore_nonneg _ e

/-! ## Emptiness lemmas -/

theorem isEmptyScores_true_iff (s : String → ℚ) :
    isEmptyScores s = true ↔ ∀ e ∈ emotionCategories, s e = 0 := by
  unfold isEmptyScores
  rw [List.all_eq_true]
  constructor
  · intro h e he
    have := h e he
    exact beq_iff_eq.mp this
  · intro h e he
    exact beq_iff_eq.mpr (h e he)

theorem isEmptyScores_false_iff (s : String → ℚ) :
    isEmptyScores s = false ↔ ∃ e ∈ emotionCategories, s e ≠ 0 := by
  have h1 : isEmptyScores s = false ↔ ¬ isEmptyScores s = true := by simp
  rw [h1, isEmptyScores_true_iff]
  push_neg
  rfl

theorem totalScore_pos (s : String → ℚ)
    (hn : ∀ e ∈ emotionCategories, 0 ≤ s e)
    (h : isEmptyScores s = false) : 0 < totalScore s := by
  rcases (isEmptyScores_false_iff s).mp h with ⟨e, he, hne⟩
  have hpos : 0 < s e := lt_of_le_of_ne (hn e he) (Ne.symm hne)
  have hall : ∀ x ∈ emotionCategories.map s, 0 ≤ x := by
    intro x hx
    rcases List.mem_map.mp hx with ⟨c, hc, hcx⟩
    subst hcx
    exact hn c hc
  have hle : s e ≤ totalScore s :=
    List.single_le_sum hall _ (List.mem_map.mpr ⟨e, he, rfl⟩)
  linarith

theorem sum_filter_pos (cats : List String) (s : String → ℚ)
    (h : ∀ e ∈ cats, 0 ≤ s e) :
    ((cats.filter (fun e => decide (0 < s e))).map s).sum = (cats.map s).sum := by
  induction cats with
  | nil => simp
  | cons a t ih =>
    have ha := h a (List.mem_cons_self a t)
    have ht : ∀ e ∈ t, 0 ≤ s e := fun e he => h e (List.mem_cons_of_mem a he)
    rw [List.filter_cons]
    by_cases hp : 0 < s a
    · have hd : decide (0 < s a) = true := decide_eq_true hp
      rw [hd, if_pos rfl]
      simp only [List.map_cons, List.sum_cons]
      rw [ih ht]
    · have hz : s a = 0 := le_antisymm (not_lt.mp hp) ha
      have hd : decide (0 < s a) = false := decide_eq_false hp
      rw [hd, if_neg (by simp)]
      simp only [List.map_cons, List.sum_cons]
      rw [ih ht, hz, zero_add]

/-! ## C8 — the tag generator returns at most six deduplicated tags, and a
fixed three-tag generic list on the empty profile -/

/-- Claim C8: for every emotion profile, `generate_mood_tags` returns at
most 6 tags with no duplicates, and the empty profile gets the fixed
3-tag generic list. -/
theorem c8_tags_bounded_dedup (profile : List (String × ℚ)) :
    (generate_mood_tags profile).length ≤ 6 ∧
    (generate_mood_tags profile).Nodup ∧
    (profile = [] → generate_mood_tags profile = genericTags) := by
  by_cases hp : profile.isEmpty = true
  · rw [generate_mood_tags, if_pos hp]
    exact ⟨by decide, by decide, fun _ => rfl⟩
  · rw [generate_mood_tags, if_neg hp]
    refine ⟨?_, ?_, ?_⟩
    · rw [List.length_take]
      exact min_le_left _ _
    · exact (List.take_sublist _ _).nodup (List.nodup_dedup _)
    · intro h
      subst h
      simp at hp

/-- Witness for C8 at the empty profile: the hypothesis of the third
conjunct is discharged at `[]`, where the generator returns the generic
3-tag list. -/
theorem c8_tags_bounded_dedup_witness :
    generate_mood_tags [] = genericTags :=
  (c8_tags_bounded_dedup []).2.2 rfl

/-! ## C9 — the joy-only example -/

unseal Rat.add Rat.mul Rat.inv in
theorem round3_one : round3 1 = 1 := by decide

unseal Rat.add Rat.mul Rat.inv in
theorem dominant_singleton_joy : dominantEmotionsOf [(("joy"), 1)] = ["joy"] := by decide

/-- Claim C9: on any input whose combined text blob contains "happy" (a joy
keyword, counted as a weighted substring match) while every category other
than joy scores zero under the primary lexicon — in particular on the
spec's example "happy" + "laughter" with no other category keyword — the
normalized profile is exactly joy ↦ 1.0 and the dominant-emotion list is
["joy"]. -/
theorem c9_joy_example (ov tg : String) (kw gs : List String)
    (h1 : 0 < countSub (("happy")).data (scoreBlob ov tg kw))
    (h2 : 0 < countSub (("laughter")).data (scoreBlob ov tg kw))
    (h3 : ∀ e ∈ emotionCategories, e ≠ ("joy") →
      primaryScore (scoreBlob ov tg kw) e = 0) :
    (analyze_movie_emotion ov tg kw gs).emotion_profile = [(("joy"), 1)] ∧
    (analyze_movie_emotion ov tg kw gs).dominant_emotions = ["joy"] := by
  set text := scoreBlob ov tg kw with htext
  -- the "happy" term alone makes the joy score positive
  have hterm : keywordMatchScore text ("happy") = countSub (("happy")).data text * 2 := rfl
  have hmem : keywordMatchScore text ("happy") ∈
      (lexiconWords ("joy")).map (keywordMatchScore text) := by
    apply List.mem_map.mpr
    exact ⟨("happy"), by decide, rfl⟩
  have hle : keywordMatchScore text ("happy") ≤
      ((lexiconWords ("joy")).map (keywordMatchScore text)).sum :=
    List.single_le_sum (fun x _ => Nat.zero_le x) _ hmem
  have hjoyN : 0 < ((lexiconWords ("joy")).map (keywordMatchScore text)).sum := by
    have : 0 < keywordMatchScore text ("happy") := by omega
    omega
  have hjoy : 0 < primaryScore text ("joy") := by
    unfold primaryScore
    exact_mod_cast hjoyN
  -- the primary pass is non-empty, so it is the score function used
  have hne : isEmptyScores (primaryScores ov tg kw) = false := by
    apply (isEmptyScores_false_iff _).mpr
    exact ⟨("joy"), by decide, by
      show primaryScore text ("joy") ≠ 0
      exact ne_of_gt hjoy⟩
  have hscores : emotionScoresOf ov tg kw gs = primaryScores ov tg kw := by
    unfold emotionScoresOf
    rw [hne]
    simp
  -- all the other categories score zero
  have hz : ∀ e, e ∈ emotionCategories → e ≠ ("joy") →
      primaryScores ov tg kw e = 0 := fun e he hne => h3 e he hne
  have hsad := hz ("sadness") (by decide) (by decide)
  have hang := hz ("anger") (by decide) (by decide)
  have hfear := hz ("fear") (by decide) (by decide)
  have hlove := hz ("love") (by decide) (by decide)
  have hhope := hz ("hope") (by decide) (by decide)
  have hlon := hz ("loneliness") (by decide) (by decide)
  have hinsp := hz ("inspiration") (by decide) (by decide)
  have htens := hz ("tension") (by decide) (by decide)
  have hpeace := hz ("peace") (by decide) (by decide)
  have hjoyP : 0 < primaryScores ov tg kw ("joy") := hjoy
  -- the total equals the joy score
  have htot : totalScore (primaryScores ov tg kw) = primaryScores ov tg kw ("joy") := by
    unfold totalScore emotionCategories
    simp [hsad, hang, hfear, hlove, hhope, hlon, hinsp, htens, hpeace]
  -- the normalized profile is the singleton joy ↦ 1
  have hfil : emotionCategories.filter
      (fun e => decide (0 < primaryScores ov tg kw e)) = [("joy")] := by
    unfold emotionCategories
    simp [List.filter_cons, decide_eq_true hjoyP, hsad, hang, hfear, hlove, hhope,
      hlon, hinsp, htens, hpeace]
  have hprof : normalizedProfile (primaryScores ov tg kw) = [(("joy"), 1)] := by
    unfold normalizedProfile
    rw [if_pos (by rw [htot]; exact hjoyP), hfil]
    simp only [List.map_cons, List.map_nil]
    rw [htot, div_self (ne_of_gt hjoyP), round3_one]
  constructor
  · show normalizedProfile (emotionScoresOf ov tg kw gs) = [(("joy"), 1)]
    rw [hscores, hprof]
  · show dominantEmotionsOf (normalizedProfile (emotionScoresOf ov tg kw gs)) = ["joy"]
    rw [hscores, hprof]
    exact dominant_singleton_joy

/-- Witness for C9 at the spec's own example: overview "happy laughter",
no tagline, keywords or genres. -/
theorem c9_joy_example_witness :
    (analyze_movie_emotion ("happy laughter") ("") [] []).emotion_profile =
      [(("joy"), 1)] ∧
    (analyze_movie_emotion ("happy laughter") ("") [] []).dominant_emotions =
      ["joy"] :=
  c9_joy_example ("happy laughter") ("") [] [] (by decide) (by decide) (by decide)

/-! ## C2 — normalized profiles sum to 1 within rounding tolerance -/

theorem zeroFillProfile_length (p : List (String × ℚ)) :
    (zeroFillProfile p).length = 10 := by
  unfold zeroFillProfile
  rw [List.length_map]
  rfl

/-- Claim C2: whenever the scorer returns a non-empty profile, its values
(each a raw score divided by the total and rounded to three decimals) sum
to 1 up to the accumulated rounding error, at most 10 · 0.0005 = 0.005;
and the same bound holds for the profile produced by the JSON loader's
zero-fill-and-renormalize step whenever the loaded values have a positive
sum. -/
theorem c2_profile_sums_to_one :
    (∀ (ov tg : String) (kw gs : List String),
      (analyze_movie_emotion ov tg kw gs).emotion_profile ≠ [] →
      |profileValuesSum ((analyze_movie_emotion ov tg kw gs).emotion_profile) - 1| ≤
        1/200) ∧
    (∀ p : List (String × ℚ), 0 < zeroFillTotal p →
      |profileValuesSum (load_fixed_profile p) - 1| ≤ 1/200) := by
  constructor
  · intro ov tg kw gs hne
    set s := emotionScoresOf ov tg kw gs with hs
    have hnonneg : ∀ e ∈ emotionCategories, 0 ≤ s e := fun e _ =>
      emotionScoresOf_nonneg ov tg kw gs e
    have hprof : (analyze_movie_emotion ov tg kw gs).emotion_profile =
        normalizedProfile s := rfl
    rw [hprof] at hne ⊢
    by_cases ht : 0 < totalScore s
    · unfold normalizedProfile
      rw [if_pos ht]
      unfold profileValuesSum
      rw [List.map_map]
      have hcomp : (Prod.snd ∘ fun e => (e, round3 (s e / totalScore s))) =
          fun e => round3 (s e / totalScore s) := rfl
      rw [hcomp]
      have hmm : (List.map (fun e => round3 (s e / totalScore s))
            (emotionCategories.filter (fun e => decide (0 < s e)))) =
          ((emotionCategories.filter (fun e => decide (0 < s e))).map s).map
            (fun x => round3 (x / totalScore s)) := by
        rw [List.map_map]
        rfl
      rw [hmm]
      have hsum : ((emotionCategories.filter (fun e => decide (0 < s e))).map s).sum =
          totalScore s := by
        rw [sum_filter_pos emotionCategories s hnonneg]
        rfl
      have hbound := abs_sum_round3_ratio_sub_one
        ((emotionCategories.filter (fun e => decide (0 < s e))).map s)
        (totalScore s) (ne_of_gt ht) hsum
      have hlen : ((emotionCategories.filter (fun e => decide (0 < s e))).map s).length ≤
          10 := by
        rw [List.length_map]
        calc (emotionCategories.filter (fun e => decide (0 < s e))).length
            ≤ emotionCategories.length := List.length_filter_le _ _
          _ = 10 := rfl
      calc |(((emotionCategories.filter (fun e => decide (0 < s e))).map s).map
            (fun x => round3 (x / totalScore s))).sum - 1|
          ≤ ((emotionCategories.filter (fun e => decide (0 < s e))).map s).length / 2000 :=
            hbound
        _ ≤ 10 / 2000 := by
            apply div_le_div_of_nonneg_right _ (by norm_num)
            · exact_mod_cast hlen
        _ = 1/200 := by norm_num
    · exfalso
      apply hne
      unfold normalizedProfile
      rw [if_neg ht]
  · intro p hp
    unfold load_fixed_profile
    rw [if_pos hp]
    unfold profileValuesSum
    rw [List.map_map]
    have hcomp : (Prod.snd ∘ fun q : String × ℚ => (q.1, round3 (q.2 / zeroFillTotal p))) =
        fun q : String × ℚ => round3 (q.2 / zeroFillTotal p) := rfl
    rw [hcomp]
    have hmm : (List.map (fun q : String × ℚ => round3 (q.2 / zeroFillTotal p))
          (zeroFillProfile p)) =
        ((zeroFillProfile p).map Prod.snd).map (fun x => round3 (x / zeroFillTotal p)) := by
      rw [List.map_map]
      rfl
    rw [hmm]
    have hsum : ((zeroFillProfile p).map Prod.snd).sum = zeroFillTotal p := rfl
    have hbound := abs_sum_round3_ratio_sub_one ((zeroFillProfile p).map Prod.snd)
      (zeroFillTotal p) (ne_of_gt hp) hsum
    have hlen : ((zeroFillProfile p).map Prod.snd).length = 10 := by
      rw [List.length_map, zeroFillProfile_length]
    calc |(((zeroFillProfile p).map Prod.snd).map
          (fun x => round3 (x / zeroFillTotal p))).sum - 1|
        ≤ ((zeroFillProfile p).map Prod.snd).length / 2000 := hbound
      _ = 10 / 2000 := by rw [hlen]; norm_num
      _ = 1/200 := by norm_num

unseal Rat.add Rat.mul Rat.inv in
/-- Witness for C2: the scorer side at the input "happy happy sad fear"
(non-empty profile) and the loader side at a profile with positive total. -/
theorem c2_profile_sums_to_one_witness :
    |profileValuesSum ((analyze_movie_emotion ("happy happy sad fear") ("") []
      []).emotion_profile) - 1| ≤ 1/200 ∧
    |profileValuesSum (load_fixed_profile [(("joy"), 1/2)]) - 1| ≤ 1/200 :=
  ⟨c2_profile_sums_to_one.1 ("happy happy sad fear") ("") [] [] (by decide),
    c2_profile_sums_to_one.2 [(("joy"), 1/2)] (by decide)⟩

/-! ## C6 — export / reload round-trip of the emotion profile

The loader renormalizes by the sum of the exported (already-rounded)
values; that sum is close to but not always exactly 1, and when it is not,
re-rounding changes a value.  The claim as stated is therefore false; the
counterexample is the profile produced by the scorer for the overview
"happy happy sad fear" (raw scores joy 4, sadness 1, fear 1), which
exports joy ↦ 0.667 but reloads as joy ↦ 0.666. -/

theorem lookup_zeroFillProfile (p : List (String × ℚ)) (e : String)
    (h : e ∈ emotionCategories) :
    (zeroFillProfile p).lookup e = some (profileGet p e) :=
  lookup_map_self emotionCategories (fun c => (p.lookup c).getD 0) e h

theorem round3_zero : round3 0 = 0 := by
  rw [show (0:ℚ) = ((0:ℤ):ℚ)/1000 by norm_num, round3_intCast_div_thousand]

unseal Rat.add Rat.mul Rat.inv in
/-- Counterexample to C6 as stated: for the `MergedRecord` built by the
batch builder from overview "happy happy sad fear", the exported joy value
is 0.667, but reloading the exported profile through the loader's
zero-fill-and-renormalize step yields 0.666 ≠ 0.667 (the exported values
sum to 1.001, so the renormalizing division shifts the rounding). -/
theorem c6_roundtrip_counterexample :
    profileGet ((analyze_movie_emotion ("happy happy sad fear") ("") []
        []).emotion_profile) ("joy") = 667/1000 ∧
    profileValuesSum ((analyze_movie_emotion ("happy happy sad fear") ("") []
        []).emotion_profile) = 1001/1000 ∧
    profileGet (load_fixed_profile ((analyze_movie_emotion ("happy happy sad fear")
        ("") [] []).emotion_profile)) ("joy") = 666/1000 ∧
    profileGet (load_fixed_profile ((analyze_movie_emotion ("happy happy sad fear")
        ("") [] []).emotion_profile)) ("joy") ≠
      profileGet ((analyze_movie_emotion ("happy happy sad fear") ("") []
        []).emotion_profile) ("joy") := by
  refine ⟨by decide, by decide, by decide, by decide⟩

/-- Amended C6: reloading an exported profile reproduces, for each of the
ten categories, `round3(value / total)` where `total` is the sum of the
zero-filled exported values (and the exported values unchanged when that
total is not positive); in particular categories added by the zero-fill
stay 0, and when the exported values (3-decimal multiples) sum to exactly
1 the profile is reproduced unchanged.  Exact reproduction can fail only
when the exported values do not sum to exactly 1, as in the
counterexample. -/
theorem c6_roundtrip_amended (p : List (String × ℚ)) :
    (∀ e ∈ emotionCategories,
      profileGet (load_fixed_profile p) e =
        (if 0 < zeroFillTotal p then round3 (profileGet p e / zeroFillTotal p)
         else profileGet p e)) ∧
    (∀ e ∈ emotionCategories, p.lookup e = none →
      profileGet (load_fixed_profile p) e = 0) ∧
    ((∀ e ∈ emotionCategories, ∃ m : ℤ, profileGet p e = (m : ℚ) / 1000) →
      zeroFillTotal p = 1 →
      ∀ e ∈ emotionCategories, profileGet (load_fixed_profile p) e = profileGet p e) := by
  have hbase : ∀ e ∈ emotionCategories,
      profileGet (load_fixed_profile p) e =
        (if 0 < zeroFillTotal p then round3 (profileGet p e / zeroFillTotal p)
         else profileGet p e) := by
    intro e he
    unfold load_fixed_profile
    by_cases ht : 0 < zeroFillTotal p
    · rw [if_pos ht, if_pos ht]
      unfold profileGet
      rw [lookup_map_value (zeroFillProfile p) (fun v => round3 (v / zeroFillTotal p)) e,
        lookup_zeroFillProfile p e he]
      rfl
    · rw [if_neg ht, if_neg ht]
      unfold profileGet
      rw [lookup_zeroFillProfile p e he]
      rfl
  refine ⟨hbase, ?_, ?_⟩
  · intro e he hnone
    rw [hbase e he]
    have hz : profileGet p e = 0 := by
      unfold profileGet
      rw [hnone]
      rfl
    by_cases ht : 0 < zeroFillTotal p
    · rw [if_pos ht, hz, zero_div, round3_zero]
    · rw [if_neg ht]
      exact hz
  · intro hmul hone e he
    rw [hbase e he, hone, if_pos (by norm_num : (0:ℚ) < 1), div_one]
    rcases hmul e he with ⟨m, hm⟩
    rw [hm, round3_intCast_div_thousand]

unseal Rat.add Rat.mul Rat.inv in
/-- Witness for the amended C6 at a profile whose 3-decimal values sum to
exactly 1: the reload reproduces the joy value unchanged. -/
theorem c6_roundtrip_amended_witness :
    profileGet (load_fixed_profile [(("joy"), 500/1000), (("fear"), 500/1000)])
      ("joy") =
    profileGet [(("joy"), 500/1000), (("fear"), 500/1000)] ("joy") :=
  (c6_roundtrip_amended [(("joy"), 500/1000), (("fear"), 500/1000)]).2.2
    (by
      intro e he
      fin_cases he <;> first
        | exact ⟨500, by decide⟩
        | exact ⟨0, by decide⟩)
    (by decide) ("joy") (by decide)

/-! ## C4 — unknown emotion labels are dropped; an all-zero target vector
yields an empty result -/

theorem convertTargetLoop_snd (t : List (String × ℚ)) :
    ∀ acc : List (String × ℚ) × List String,
      (t.foldl (fun acc p =>
        if fixed_emotion_labels.contains (mapLabel p.1) then
          (setKV acc.1 (mapLabel p.1) (clamp01 p.2), acc.2)
        else (acc.1, acc.2 ++ [p.1])) acc).2 =
      acc.2 ++ (t.filter
        (fun p => !(fixed_emotion_labels.contains (mapLabel p.1)))).map Prod.fst := by
  induction t with
  | nil => intro acc; simp
  | cons a t ih =>
    intro acc
    rw [List.foldl_cons, List.filter_cons]
    cases hk : fixed_emotion_labels.contains (mapLabel a.1) with
    | true =>
      rw [show (!true) = false from rfl, if_pos rfl, if_neg (by decide), ih]
    | false =>
      rw [show (!false) = true from rfl, if_neg (by decide), if_pos rfl, ih,
        List.map_cons, List.append_assoc, List.singleton_append]

theorem convertTargetLoop_fst (t : List (String × ℚ)) :
    ∀ acc : List (String × ℚ) × List String,
      (t.foldl (fun acc p =>
        if fixed_emotion_labels.contains (mapLabel p.1) then
          (setKV acc.1 (mapLabel p.1) (clamp01 p.2), acc.2)
        else (acc.1, acc.2 ++ [p.1])) acc).1 =
      (t.filter (fun p => fixed_emotion_labels.contains (mapLabel p.1))).foldl
        (fun c p => setKV c (mapLabel p.1) (clamp01 p.2)) acc.1 := by
  induction t with
  | nil => intro acc; simp
  | cons a t ih =>
    intro acc
    rw [List.foldl_cons, List.filter_cons]
    cases hk : fixed_emotion_labels.contains (mapLabel a.1) with
    | true =>
      rw [if_pos rfl, if_pos rfl, List.foldl_cons, ih]
    | false =>
      rw [if_neg (by decide), if_neg (by decide), ih]

/-- Claim C4: `emotion_search` drops exactly the query labels that do not
map (directly or through the bilingual alias table) into the fixed
ten-category space — those are the warned-about labels — while the target
vector is built from the remaining labels alone; and whenever the mapped
target vector is all zeros, the search returns the empty list. -/
theorem c4_unknown_labels_dropped (target : List (String × ℚ)) :
    droppedLabels target =
      (target.filter
        (fun p => !(fixed_emotion_labels.contains (mapLabel p.1)))).map Prod.fst ∧
    targetVector target =
      targetVector (target.filter
        (fun p => fixed_emotion_labels.contains (mapLabel p.1))) ∧
    (∀ (cos : List ℚ → List ℚ → ℚ) (movies : List RMovie) (topk : ℕ),
      (targetVector target).all (fun x => x == 0) = true →
      emotion_search cos movies target topk = []) := by
  refine ⟨?_, ?_, ?_⟩
  · unfold droppedLabels convertTargetLoop
    rw [convertTargetLoop_snd]
    rfl
  · unfold targetVector convertTargetLoop
    rw [convertTargetLoop_fst, convertTargetLoop_fst]
    rw [List.filter_filter]
    have : (fun (p : String × ℚ) =>
        fixed_emotion_labels.contains (mapLabel p.1) &&
          fixed_emotion_labels.contains (mapLabel p.1)) =
        (fun p => fixed_emotion_labels.contains (mapLabel p.1)) := by
      funext p
      rw [Bool.and_self]
    rw [this]
  · intro cos movies topk h
    unfold emotion_search
    rw [if_pos h]

unseal Rat.add Rat.mul Rat.inv in
/-- Witness for C4's zero-vector conclusion at a concrete unknown label:
the label "unknown" maps nowhere, the target vector is all zeros, and the
search returns no results. -/
theorem c4_unknown_labels_dropped_witness :
    emotion_search dotQ [cMovie0] [(("unknown"), 1/2)] 5 = [] :=
  (c4_unknown_labels_dropped [(("unknown"), 1/2)]).2.2 dotQ [cMovie0] 5 (by decide)

/-! ## C10 — query emotion extraction is total, positive and normalized;
the mood recommendation's semantic fallback is unreachable -/

theorem sum_filter_pos_nat (l : List (String × ℕ)) :
    ((l.filter (fun p => decide (0 < p.2))).map Prod.snd).sum =
    (l.map Prod.snd).sum := by
  induction l with
  | nil => rfl
  | cons a t ih =>
    rw [List.filter_cons]
    by_cases hp : 0 < a.2
    · rw [decide_eq_true hp, if_pos rfl, List.map_cons, List.sum_cons, ih,
        List.map_cons, List.sum_cons]
    · have hz : a.2 = 0 := Nat.eq_zero_of_not_pos hp
      rw [decide_eq_false hp, if_neg (by decide), ih, List.map_cons, List.sum_cons, hz,
        Nat.zero_add]

/-- The three facts (non-empty, positive values, values summing to 1)
for each of the six fixed fallback/default distributions of
`extract_emotions_from_query`. -/
def distributionOk (L : List (String × ℚ)) : Prop :=
  L ≠ [] ∧ L.all (fun p => decide (0 < p.2)) = true ∧ profileValuesSum L = 1

instance distributionOkDecidable (L : List (String × ℚ)) :
    Decidable (distributionOk L) := by
  unfold distributionOk
  infer_instance

unseal Rat.add Rat.mul Rat.inv in
theorem c10_fallback_lists :
    distributionOk [(("loneliness"), 8/10), (("sadness"), 2/10)] ∧
    distributionOk [(("joy"), 8/10), (("love"), 2/10)] ∧
    distributionOk [(("sadness"), 8/10), (("loneliness"), 2/10)] ∧
    distributionOk [(("tension"), 8/10), (("fear"), 2/10)] ∧
    distributionOk [(("love"), 8/10), (("joy"), 2/10)] ∧
    distributionOk [(("joy"), 3/10), (("hope"), 3/10), (("inspiration"), 4/10)] := by
  decide

set_option maxHeartbeats 1000000 in
/-- Claim C10: for every query, `extract_emotions_from_query` returns a
non-empty mapping with positive values summing exactly to 1 (hit counts
normalized by the total, or one of the fixed fallback/default
distributions); consequently `get_recommendation_by_mood` always delegates
to `emotion_search`, and its `semantic_search` fallback branch is
unreachable. -/
theorem c10_mood_always_emotion_search (semSims : List ℚ)
    (cos : List ℚ → List ℚ → ℚ) (movies : List RMovie) (query : List Char)
    (topk : ℕ) :
    extract_emotions_from_query query ≠ [] ∧
    (extract_emotions_from_query query).all (fun p => decide (0 < p.2)) = true ∧
    profileValuesSum (extract_emotions_from_query query) = 1 ∧
    get_recommendation_by_mood semSims cos movies query topk =
      emotion_search cos movies (extract_emotions_from_query query) topk := by
  have hmain : extract_emotions_from_query query ≠ [] ∧
      (extract_emotions_from_query query).all (fun p => decide (0 < p.2)) = true ∧
      profileValuesSum (extract_emotions_from_query query) = 1 := by
    unfold extract_emotions_from_query
    by_cases ht : 0 < queryTotal query
    · rw [if_pos ht]
      have hex : ∃ p ∈ queryCounts query, 0 < p.2 := by
        by_contra hno
        push_neg at hno
        have hz : ∀ x ∈ (queryCounts query).map Prod.snd, x = 0 := by
          intro x hx
          rcases List.mem_map.mp hx with ⟨p, hp, hpx⟩
          subst hpx
          exact Nat.eq_zero_of_not_pos (not_lt.mpr (hno p hp))
        have : queryTotal query = 0 := by
          unfold queryTotal
          exact List.sum_eq_zero hz
        omega
      rcases hex with ⟨p, hpmem, hppos⟩
      have hpf : p ∈ (queryCounts query).filter (fun p => decide (0 < p.2)) :=
        List.mem_filter.mpr ⟨hpmem, decide_eq_true hppos⟩
      refine ⟨?_, ?_, ?_⟩
      · apply List.ne_nil_of_mem (a := (p.1, (p.2 : ℚ) / (queryTotal query : ℚ)))
        exact List.mem_map.mpr ⟨p, hpf, rfl⟩
      · apply List.all_eq_true.mpr
        intro x hx
        rcases List.mem_map.mp hx with ⟨q, hqf, hqx⟩
        subst hqx
        have hq : 0 < q.2 := of_decide_eq_true (List.mem_filter.mp hqf).2
        apply decide_eq_true
        show (0:ℚ) < (q.2 : ℚ) / (queryTotal query : ℚ)
        apply div_pos
        · exact_mod_cast hq
        · exact_mod_cast ht
      · unfold profileValuesSum
        rw [List.map_map]
        have hc1 : (Prod.snd ∘ fun p : String × ℕ => (p.1, (p.2 : ℚ) / (queryTotal query : ℚ))) =
            fun p : String × ℕ => (p.2 : ℚ) / (queryTotal query : ℚ) := rfl
        rw [hc1]
        have hc2 : (((queryCounts query).filter (fun p => decide (0 < p.2))).map
              (fun p : String × ℕ => (p.2 : ℚ) / (queryTotal query : ℚ))) =
            ((((queryCounts query).filter (fun p => decide (0 < p.2))).map
              (fun p : String × ℕ => (p.2 : ℚ))).map
              (fun x => x / (queryTotal query : ℚ))) := by
          rw [List.map_map]
          rfl
        rw [hc2, sum_map_div]
        have hc3 : (((queryCounts query).filter (fun p => decide (0 < p.2))).map
              (fun p : String × ℕ => (p.2 : ℚ))) =
            ((((queryCounts query).filter (fun p => decide (0 < p.2))).map
              Prod.snd).map (fun n : ℕ => (n : ℚ))) := by
          rw [List.map_map]
          rfl
        have hc4 : (((queryCounts query).filter (fun p => decide (0 < p.2))).map
              (fun p : String × ℕ => (p.2 : ℚ))).sum = (queryTotal query : ℚ) := by
          rw [hc3, ← Nat.cast_list_sum, sum_filter_pos_nat]
          rfl
        rw [hc4, div_self (by exact_mod_cast Nat.pos_iff_ne_zero.mp ht)]
    · rw [if_neg ht]
      split_ifs
      · exact c10_fallback_lists.1
      · exact c10_fallback_lists.2.1
      · exact c10_fallback_lists.2.2.1
      · exact c10_fallback_lists.2.2.2.1
      · exact c10_fallback_lists.2.2.2.2.1
      · exact c10_fallback_lists.2.2.2.2.2
  refine ⟨hmain.1, hmain.2.1, hmain.2.2, ?_⟩
  unfold get_recommendation_by_mood
  rcases hE : extract_emotions_from_query query with _ | ⟨x, xs⟩
  · exact absurd hE hmain.1
  · rfl

unseal Rat.add Rat.mul Rat.inv in
/-- Witness for C10 at a concrete keyword-free query: the extraction is
non-empty, sums to 1, and the recommendation equals the emotion-search
branch. -/
theorem c10_mood_always_emotion_search_witness :
    extract_emotions_from_query (("随便")).data ≠ [] ∧
    profileValuesSum (extract_emotions_from_query (("随便")).data) = 1 ∧
    get_recommendation_by_mood [] dotQ [] (("随便")).data 5 =
      emotion_search dotQ [] (extract_emotions_from_query (("随便")).data) 5 :=
  ⟨(c10_mood_always_emotion_search [] dotQ [] (("随便")).data 5).1,
    (c10_mood_always_emotion_search [] dotQ [] (("随便")).data 5).2.2.1,
    (c10_mood_always_emotion_search [] dotQ [] (("随便")).data 5).2.2.2⟩

/-! ## C1 — order and stopping behaviour of the fallback chain

The spec says the chain stops at the first strategy producing a non-zero
score.  In the source, only strategies 2 (genre table) and 4 (heuristics /
default) are guarded; strategy 3 (the hardcoded known-movie overrides) runs
unconditionally and adds its scores on top of whatever strategies 1–2
produced. -/

theorem isEmptyScores_congr (f g : String → ℚ)
    (h : ∀ e ∈ emotionCategories, f e = g e) :
    isEmptyScores f = isEmptyScores g := by
  unfold isEmptyScores
  rw [Bool.eq_iff_iff, List.all_eq_true, List.all_eq_true]
  constructor
  · intro hh e he
    rw [← h e he]
    exact hh e he
  · intro hh e he
    rw [h e he]
    exact hh e he

theorem fallbackS2_of_S1_nonempty (ov tg : String) (gs : List String)
    (h1 : isEmptyScores (fallbackS1 ov tg) = false) :
    fallbackS2 ov tg gs = fallbackS1 ov tg := by
  unfold fallbackS2
  rw [h1, Bool.and_false, if_neg (by decide)]

theorem fallbackS3_on_cats_of_S1_empty (ov tg : String) (gs : List String)
    (h1 : isEmptyScores (fallbackS1 ov tg) = true) :
    ∀ e ∈ emotionCategories, fallbackS3 ov tg gs e =
      (if !gs.isEmpty then genreScoreOn gs e else 0) +
        knownBonusOn (lowerText ov.data) e := by
  intro e he
  have hz : fallbackS1 ov tg e = 0 := (isEmptyScores_true_iff _).mp h1 e he
  unfold fallbackS3 fallbackS2
  rw [h1, Bool.and_true]
  cases hgs : gs.isEmpty with
  | true =>
    rw [show (!true) = false from rfl, if_neg (by decide), hz, if_neg (by decide)]
  | false =>
    rw [show (!false) = true from rfl, if_pos rfl, if_pos rfl, hz, zero_add]

unseal Rat.add Rat.mul Rat.inv in
/-- Counterexample to C1 as stated: on overview "comic 教父" (no tagline,
keywords or genres) the primary lexicon matches nothing, so the fallback
chain runs; the expanded lexicon (strategy a) already produces the
non-zero score joy ↦ 2, yet the later known-movie override strategy (c)
still contributes tension ↦ 3 (and anger, sadness), because the
substring "教父" occurs in the overview.  A chain that stopped at the
first non-zero strategy — `specFallbackChain`, written from the spec's
words — would return joy ↦ 2 only. -/
theorem c1_fallback_chain_counterexample :
    isEmptyScores (primaryScores ("comic 教父") ("") []) = true ∧
    fallbackS1 ("comic 教父") ("") ("joy") = 2 ∧
    fallbackS1 ("comic 教父") ("") ("tension") = 0 ∧
    fallbackEmotionScores ("comic 教父") ("") [] [] ("tension") = 3 ∧
    specFallbackChain ("comic 教父") ("") [] ("tension") = 0 ∧
    emotionCategories.map (fallbackEmotionScores ("comic 教父") ("") [] []) ≠
      emotionCategories.map (specFallbackChain ("comic 教父") ("") []) := by
  refine ⟨by decide, by decide, by decide, by decide, by decide, by decide⟩

/-- Amended C1: when the primary pass is empty the fallback chain runs
with this structure — (a) the expanded lexicon and (b) the genre table are
tried in order, (b) only when (a) produced nothing; (c) the known-movie
overrides are ALWAYS added on top of the result of (a)/(b); (d)/(e) the
text-length/keyword-trigger heuristics and default distribution run only
when (a)–(c) all produced nothing. -/
theorem c1_fallback_chain_amended (ov tg : String) (kw gs : List String) :
    (isEmptyScores (fallbackS1 ov tg) = false →
      ∀ e, fallbackEmotionScores ov tg kw gs e =
        fallbackS1 ov tg e + knownBonusOn (lowerText ov.data) e) ∧
    (isEmptyScores (fallbackS1 ov tg) = true →
      isEmptyScores (fun e => (if !gs.isEmpty then genreScoreOn gs e else 0) +
        knownBonusOn (lowerText ov.data) e) = false →
      ∀ e ∈ emotionCategories, fallbackEmotionScores ov tg kw gs e =
        (if !gs.isEmpty then genreScoreOn gs e else 0) +
          knownBonusOn (lowerText ov.data) e) ∧
    (isEmptyScores (fallbackS1 ov tg) = true →
      isEmptyScores (fun e => (if !gs.isEmpty then genreScoreOn gs e else 0) +
        knownBonusOn (lowerText ov.data) e) = true →
      fallbackEmotionScores ov tg kw gs =
        strategy4On ov tg (lowerText (tg ++ spaceStr ++ ov).data)) := by
  refine ⟨?_, ?_, ?_⟩
  · intro h1 e
    have hs2 := fallbackS2_of_S1_nonempty ov tg gs h1
    have hs3 : ∀ x, fallbackS3 ov tg gs x =
        fallbackS1 ov tg x + knownBonusOn (lowerText ov.data) x := by
      intro x
      unfold fallbackS3
      rw [hs2]
    have hne : isEmptyScores (fallbackS3 ov tg gs) = false := by
      rcases (isEmptyScores_false_iff _).mp h1 with ⟨c, hc, hcne⟩
      apply (isEmptyScores_false_iff _).mpr
      refine ⟨c, hc, ?_⟩
      rw [hs3 c]
      have hp : 0 < fallbackS1 ov tg c :=
        lt_of_le_of_ne (fallbackS1_nonneg ov tg c) (Ne.symm hcne)
      have hk := knownBonusOn_nonneg (lowerText ov.data) c
      positivity
    unfold fallbackEmotionScores
    rw [hne, if_neg (by decide), hs3 e]
  · intro h1 hne e he
    have hs3 := fallbackS3_on_cats_of_S1_empty ov tg gs h1
    have hcongr : isEmptyScores (fallbackS3 ov tg gs) =
        isEmptyScores (fun e => (if !gs.isEmpty then genreScoreOn gs e else 0) +
          knownBonusOn (lowerText ov.data) e) :=
      isEmptyScores_congr _ _ hs3
    have hne3 : isEmptyScores (fallbackS3 ov tg gs) = false := by
      rw [hcongr, hne]
    unfold fallbackEmotionScores
    rw [hne3, if_neg (by decide), hs3 e he]
  · intro h1 hemp
    have hs3 := fallbackS3_on_cats_of_S1_empty ov tg gs h1
    have hcongr : isEmptyScores (fallbackS3 ov tg gs) =
        isEmptyScores (fun e => (if !gs.isEmpty then genreScoreOn gs e else 0) +
          knownBonusOn (lowerText ov.data) e) :=
      isEmptyScores_congr _ _ hs3
    have hemp3 : isEmptyScores (fallbackS3 ov tg gs) = true := by
      rw [hcongr, hemp]
    unfold fallbackEmotionScores
    rw [hemp3, if_pos rfl]

unseal Rat.add Rat.mul Rat.inv in
/-- Witness for the amended C1, at the counterexample input: the expanded
lexicon is non-empty there, and the fallback's tension score is the sum of
the expanded-lexicon score and the known-movie bonus. -/
theorem c1_fallback_chain_amended_witness :
    fallbackEmotionScores ("comic 教父") ("") [] [] ("tension") =
      fallbackS1 ("comic 教父") ("") ("tension") +
        knownBonusOn (lowerText (("comic 教父")).data) ("tension") :=
  (c1_fallback_chain_amended ("comic 教父") ("") [] []).1 (by decide) ("tension")

/-! ## C7 — emotion-vector matrix columns vs. the CSV's sorted columns

The matrix's columns are the ten labels in the fixed declaration order
(joy … peace), which is NOT the canonical alphabetically sorted order the
data model describes; and the crawler's CSV uses the sorted union of the
categories actually present, which equals the sorted ten only when every
category occurs somewhere. -/

theorem strLeChars_total : ∀ a b : List Char,
    strLeChars a b = true ∨ strLeChars b a = true := by
  intro a
  induction a with
  | nil => intro b; left; rfl
  | cons x xs ih =>
    intro b
    cases b with
    | nil => right; rfl
    | cons y ys =>
      unfold strLeChars
      rcases Nat.lt_trichotomy x.toNat y.toNat with h | h | h
      · left
        rw [if_pos h]
      · rw [if_neg (by omega), if_neg (by omega), if_neg (by omega), if_neg (by omega)]
        exact ih ys
      · right
        rw [if_pos h]

theorem strLeChars_trans : ∀ a b c : List Char,
    strLeChars a b = true → strLeChars b c = true → strLeChars a c = true := by
  intro a
  induction a with
  | nil => intro b c _ _; rfl
  | cons x xs ih =>
    intro b c hab hbc
    cases b with
    | nil => exact absurd hab (by simp [strLeChars])
    | cons y ys =>
      cases c with
      | nil => exact absurd hbc (by simp [strLeChars])
      | cons z zs =>
        unfold strLeChars at hab hbc ⊢
        rcases Nat.lt_trichotomy x.toNat y.toNat with h1 | h1 | h1
        · rcases Nat.lt_trichotomy y.toNat z.toNat with h2 | h2 | h2
          · rw [if_pos (by omega)]
          · rw [if_pos (by omega)]
          · rw [if_neg (by omega), if_pos h2] at hbc
            exact absurd hbc (by simp)
        · rcases Nat.lt_trichotomy y.toNat z.toNat with h2 | h2 | h2
          · rw [if_pos (by omega)]
          · rw [if_neg (by omega), if_neg (by omega)]
            rw [if_neg (by omega), if_neg (by omega)] at hab
            rw [if_neg (by omega), if_neg (by omega)] at hbc
            exact ih ys zs hab hbc
          · rw [if_neg (by omega), if_pos h2] at hbc
            exact absurd hbc (by simp)
        · rw [if_neg (by omega), if_pos h1] at hab
          exact absurd hab (by simp)

theorem strLeChars_antisymm : ∀ a b : List Char,
    strLeChars a b = true → strLeChars b a = true → a = b := by
  intro a
  induction a with
  | nil =>
    intro b _ hba
    cases b with
    | nil => rfl
    | cons y ys => exact absurd hba (by simp [strLeChars])
  | cons x xs ih =>
    intro b hab hba
    cases b with
    | nil => exact absurd hab (by simp [strLeChars])
    | cons y ys =>
      unfold strLeChars at hab hba
      rcases Nat.lt_trichotomy x.toNat y.toNat with h | h | h
      · rw [if_neg (by omega), if_pos h] at hba
        exact absurd hba (by simp)
      · rw [if_neg (by omega), if_neg (by omega)] at hab hba
        have hxy : x = y := Char.ext_iff.mpr (UInt32.ext h)
        rw [hxy, ih ys hab hba]
      · rw [if_neg (by omega), if_pos h] at hab
        exact absurd hab (by simp)

instance strLeTotal : IsTotal String (fun a b => strLe a b = true) :=
  ⟨fun a b => strLeChars_total a.data b.data⟩

instance strLeTrans : IsTrans String (fun a b => strLe a b = true) :=
  ⟨fun a b c => strLeChars_trans a.data b.data c.data⟩

instance strLeAntisymm : IsAntisymm String (fun a b => strLe a b = true) :=
  ⟨fun a b hab hba => by
    have hd := strLeChars_antisymm a.data b.data hab hba
    cases a
    cases b
    exact congrArg String.mk hd⟩

theorem sortStrings_sorted (l : List String) :
    List.Sorted (fun a b => strLe a b = true) (sortStrings l) :=
  List.sorted_insertionSort _ l

theorem sortStrings_perm (l : List String) : List.Perm (sortStrings l) l :=
  List.perm_insertionSort _ l

theorem sortStrings_eq_of_perm (l l2 : List String) (h : List.Perm l l2) :
    sortStrings l = sortStrings l2 :=
  List.eq_of_perm_of_sorted
    ((sortStrings_perm l).trans (h.trans (sortStrings_perm l2).symm))
    (sortStrings_sorted l) (sortStrings_sorted l2)

/-- Counterexample to C7 as stated: the recommender's
`fixed_emotion_labels` — the matrix's column order — is not the sorted
order ("joy" comes first, while "anger" is alphabetically least); and the
emotion columns of the crawler's CSV for a record set whose profiles only
mention "joy" are just ["joy"], not the fixed sorted ten. -/
theorem c7_matrix_columns_counterexample :
    fixed_emotion_labels ≠ sortStrings fixed_emotion_labels ∧
    csvEmotionColumns [[(("joy"), 1)]] ≠ sortStrings fixed_emotion_labels := by
  exact ⟨by decide, by decide⟩

theorem clamp01_of_mem (x : ℚ) (h0 : 0 ≤ x) (h1 : x ≤ 1) : clamp01 x = x := by
  unfold clamp01
  rw [min_eq_right h1, max_eq_right h0]

/-- Amended C7: the emotion-vector matrix has one row per record and ten
columns — the fixed labels in DECLARATION order (joy, sadness, anger,
fear, love, hope, loneliness, inspiration, tension, peace, identical to
the crawler's category list), not sorted order; each row is the record's
profile densified with zeros and clamped into [0, 1], the clamping being
the identity on profiles valued in [0, 1]; and the crawler's CSV emotion
columns are the alphabetically sorted union of the categories present in
the data, which equals the sorted ten exactly when every category occurs
in some profile. -/
theorem c7_matrix_and_csv_amended (movies : List RMovie) :
    (extract_emotion_vectors movies).length = movies.length ∧
    (∀ m ∈ movies, (movieVector m).length = 10) ∧
    fixed_emotion_labels = emotionCategories ∧
    (∀ m ∈ movies, (∀ p ∈ m.emotion_profile, 0 ≤ p.2 ∧ p.2 ≤ 1) →
      movieVector m = fixed_emotion_labels.map (fun e => getKV m.emotion_profile e)) ∧
    (∀ profiles : List (List (String × ℚ)),
      (∀ p ∈ profiles, ∀ q ∈ p, q.1 ∈ emotionCategories) →
      (∀ e ∈ emotionCategories, ∃ p ∈ profiles, e ∈ p.map Prod.fst) →
      csvEmotionColumns profiles = sortStrings emotionCategories) := by
  refine ⟨?_, ?_, rfl, ?_, ?_⟩
  · unfold extract_emotion_vectors
    rw [List.length_map]
  · intro m _
    unfold movieVector
    rw [List.length_map]
    rfl
  · intro m _ hin
    unfold movieVector
    apply List.map_congr_left
    intro e _
    apply clamp01_of_mem
    · exact getKV_nonneg_of_all _ _ (fun p hp => (hin p hp).1)
    · unfold getKV
      cases hl : m.emotion_profile.lookup e with
      | none => simp
      | some v =>
        have := (hin _ (lookup_mem hl)).2
        simpa using this
  · intro profiles hsub hall
    unfold csvEmotionColumns
    apply sortStrings_eq_of_perm
    apply (List.perm_ext_iff_of_nodup (List.nodup_dedup _) (by decide)).mpr
    intro a
    rw [List.mem_dedup]
    constructor
    · intro ha
      rcases List.mem_flatMap.mp ha with ⟨p, hp, hap⟩
      rcases List.mem_map.mp hap with ⟨q, hq, haq⟩
      subst haq
      exact hsub p hp q hq
    · intro ha
      rcases hall a ha with ⟨p, hp, hap⟩
      exact List.mem_flatMap.mpr ⟨p, hp, hap⟩

unseal Rat.add Rat.mul Rat.inv in
/-- Witness for the amended C7: the clamp step is the identity on a
[0, 1]-valued profile, and with every category present the CSV's emotion
columns are exactly the sorted ten labels. -/
theorem c7_matrix_and_csv_amended_witness :
    movieVector cMovie0 =
      fixed_emotion_labels.map (fun e => getKV cMovie0.emotion_profile e) ∧
    csvEmotionColumns [emotionCategories.map (fun e => (e, (1:ℚ)/10))] =
      sortStrings emotionCategories :=
  ⟨(c7_matrix_and_csv_amended [cMovie0]).2.2.2.1 cMovie0 (by decide) (by decide),
    (c7_matrix_and_csv_amended []).2.2.2.2
      [emotionCategories.map (fun e => (e, (1:ℚ)/10))] (by decide) (by decide)⟩

/-! ## Generic list lemmas for the retrieval engine -/

theorem map_getD_range {α : Type} (l : List α) (d : α) :
    (List.range l.length).map (fun i => l.getD i d) = l := by
  induction l with
  | nil => rfl
  | cons a t ih =>
    rw [List.length_cons, List.range_succ_eq_map, List.map_cons, List.map_map]
    have hc : ((fun i => (a :: t).getD i d) ∘ Nat.succ) = fun i => t.getD i d := rfl
    rw [hc, ih]
    rfl

theorem mem_enum_val {l : List ℚ} {x : ℕ × ℚ} (h : x ∈ l.enum) :
    x.1 < l.length ∧ l.getD x.1 0 = x.2 := by
  have hx := List.mem_enum_iff_getElem?.mp h
  rcases List.getElem?_eq_some_iff.mp hx with ⟨hlt, _⟩
  refine ⟨hlt, ?_⟩
  rw [List.getD_eq_getElem?_getD, hx]
  rfl

theorem getD_map_of_lt {α β : Type} (l : List α) (f : α → β) (i : ℕ)
    (h : i < l.length) (d : β) (d2 : α) :
    (l.map f).getD i d = f (l.getD i d2) := by
  rw [List.getD_eq_getElem _ d (by rw [List.length_map]; exact h),
    List.getD_eq_getElem _ d2 h]
  exact List.getElem_map f

theorem getD_mem_of_lt {α : Type} (l : List α) (i : ℕ) (h : i < l.length) (d : α) :
    l.getD i d ∈ l := by
  rw [List.getD_eq_getElem l d h]
  exact List.getElem_mem h

theorem foldl_setKV_eq_map {α κ : Type} [DecidableEq κ] (key : α → κ) (val : α → ℚ) :
    ∀ (l : List α) (acc : List (κ × ℚ)), (l.map key).Nodup →
      (∀ x ∈ l, ∀ p ∈ acc, p.1 ≠ key x) →
      l.foldl (fun d x => setKV d (key x) (val x)) acc =
        acc ++ l.map (fun x => (key x, val x)) := by
  intro l
  induction l with
  | nil => intro acc _ _; simp
  | cons a t ih =>
    intro acc hnd hdisj
    rw [List.foldl_cons]
    have hnew : (acc.any (fun p => p.1 = key a)) = false := by
      rw [List.any_eq_false]
      intro p hp
      simp only [decide_eq_true_eq]
      exact hdisj a (List.mem_cons_self a t) p hp
    have hset : setKV acc (key a) (val a) = acc ++ [(key a, val a)] := by
      unfold setKV
      rw [hnew, if_neg (by decide)]
    rw [hset]
    rw [List.map_cons] at hnd
    have hnd2 := hnd.of_cons
    have hka : key a ∉ t.map key := (List.nodup_cons.mp hnd).1
    have hdisj2 : ∀ x ∈ t, ∀ p ∈ acc ++ [(key a, val a)], p.1 ≠ key x := by
      intro x hx p hp
      rcases List.mem_append.mp hp with hp1 | hp1
      · exact hdisj x (List.mem_cons_of_mem a hx) p hp1
      · rcases List.mem_singleton.mp hp1 with rfl
        show key a ≠ key x
        intro hcon
        exact hka (hcon ▸ List.mem_map_of_mem key hx)
    rw [ih (acc ++ [(key a, val a)]) hnd2 hdisj2, List.append_assoc]
    rfl

theorem lookup_eq_of_mem_nodupkeys {κ : Type} [DecidableEq κ]
    (l : List (κ × ℚ)) (hnd : (l.map Prod.fst).Nodup) (k : κ) (v : ℚ)
    (hm : (k, v) ∈ l) : l.lookup k = some v := by
  induction l with
  | nil => simp at hm
  | cons a t ih =>
    rw [List.map_cons] at hnd
    rcases List.mem_cons.mp hm with h1 | h1
    · subst h1
      simp [List.lookup]
    · have hk : k ≠ a.1 := by
        intro hcon
        apply (List.nodup_cons.mp hnd).1
        rw [← hcon]
        exact List.mem_map_of_mem Prod.fst h1
      have hb : (k == a.1) = false := by simp [hk]
      rw [List.lookup, hb]
      exact ih hnd.of_cons h1

theorem find?_key_eq {α κ : Type} [DecidableEq κ] (key : α → κ) (l : List α)
    (hnd : (l.map key).Nodup) (x : α) (hx : x ∈ l) :
    l.find? (fun y => key y = key x) = some x := by
  induction l with
  | nil => simp at hx
  | cons a t ih =>
    rw [List.map_cons] at hnd
    by_cases hax : key a = key x
    · have hxa : a = x := by
        rcases List.mem_cons.mp hx with h1 | h1
        · exact h1.symm
        · exfalso
          apply (List.nodup_cons.mp hnd).1
          rw [hax]
          exact List.mem_map_of_mem key h1
      rw [List.find?_cons_of_pos _ (by simpa using hax), hxa]
    · have hxt : x ∈ t := by
        rcases List.mem_cons.mp hx with h1 | h1
        · exact absurd (congrArg key h1.symm) hax
        · exact h1
      rw [List.find?_cons_of_neg _ (by simpa using hax)]
      exact ih hnd.of_cons hxt

theorem filterMap_eq_map_of_some {α β : Type} (f : α → Option β) (g : α → β) :
    ∀ l : List α, (∀ x ∈ l, f x = some (g x)) → l.filterMap f = l.map g := by
  intro l
  induction l with
  | nil => intro _; rfl
  | cons a t ih =>
    intro h
    rw [List.filterMap_cons, h a (List.mem_cons_self a t), List.map_cons,
      ih (fun x hx => h x (List.mem_cons_of_mem a hx))]

theorem nodup_indexOf_getD {κ : Type} [DecidableEq κ] :
    ∀ (l : List κ), l.Nodup → ∀ (i : ℕ), i < l.length → ∀ (d : κ),
      l.indexOf (l.getD i d) = i := by
  intro l
  induction l with
  | nil => intro _ i hi; simp at hi
  | cons a t ih =>
    intro hnd i hi d
    cases i with
    | zero => simp [List.indexOf_cons_self]
    | succ j =>
      have hj : j < t.length := by
        rw [List.length_cons] at hi
        omega
      have hmem : t.getD j d ∈ t := getD_mem_of_lt t j hj d
      have hne : t.getD j d ≠ a := by
        intro hcon
        exact (List.nodup_cons.mp hnd).1 (hcon ▸ hmem)
      have hgd : (a :: t).getD (j + 1) d = t.getD j d := rfl
      rw [hgd, List.indexOf_cons_ne t hne.symm, ih (List.nodup_cons.mp hnd).2 j hj d]

theorem stableSortDesc_perm {α : Type} (key : α → ℚ) (l : List α) :
    List.Perm (stableSortDesc key l) l := by
  unfold stableSortDesc
  have h2 := (List.perm_insertionSort (rankRel key) l.enum).map Prod.snd
  rw [List.enum_map_snd] at h2
  exact h2

theorem stableSortDesc_pairwise {α : Type} (key : α → ℚ) (l : List α) :
    (stableSortDesc key l).Pairwise (fun a b => key b ≤ key a) := by
  unfold stableSortDesc
  rw [List.pairwise_map]
  apply List.Pairwise.imp ?_
    (List.sorted_insertionSort (rankRel key) l.enum)
  intro a b hr
  rcases hr with h | ⟨h, _⟩
  · exact le_of_lt h
  · exact le_of_eq h.symm

theorem lastSlice_sublist {α : Type} (l : List α) (k : ℕ) :
    (lastSlice l k).Sublist l := by
  unfold lastSlice
  split_ifs
  · exact List.Sublist.refl l
  · exact List.drop_sublist _ l

theorem lastSlice_length_of_pos {α : Type} (l : List α) (k : ℕ) (hk : 1 ≤ k) :
    (lastSlice l k).length = min k l.length := by
  unfold lastSlice
  rw [if_neg (by omega)]
  rw [List.length_drop]
  omega

theorem lastSlice_zero {α : Type} (l : List α) : lastSlice l 0 = l := by
  unfold lastSlice
  rw [if_pos rfl]

theorem lastSlice_full {α : Type} (l : List α) : lastSlice l l.length = l := by
  unfold lastSlice
  split_ifs with h
  · rfl
  · rw [Nat.sub_self]
    exact List.drop_zero l

/-! ## Structure of the index lists produced by the two sort models -/

theorem stableTopkDesc_spec (sims : List ℚ) (k : ℕ) :
    (stableTopkDesc sims k).length = min k sims.length ∧
    (stableTopkDesc sims k).Nodup ∧
    (stableTopkDesc sims k).Pairwise (fun i j =>
      sims.getD j 0 < sims.getD i 0 ∨ (sims.getD i 0 = sims.getD j 0 ∧ i ≤ j)) ∧
    (∀ i ∈ stableTopkDesc sims k, i < sims.length) := by
  have hperm : List.Perm ((sims.enum).insertionSort (rankRel id)) sims.enum :=
    List.perm_insertionSort _ _
  have hfst : List.Perm (((sims.enum).insertionSort (rankRel id)).map Prod.fst)
      (List.range sims.length) := by
    have := hperm.map Prod.fst
    rwa [List.enum_map_fst] at this
  have hnd : (((sims.enum).insertionSort (rankRel id)).map Prod.fst).Nodup :=
    hfst.nodup_iff.mpr (List.nodup_range sims.length)
  have hlenf : (((sims.enum).insertionSort (rankRel id)).map Prod.fst).length =
      sims.length := by
    rw [List.length_map, hperm.length_eq, List.enum_length]
  have hmemval : ∀ x ∈ (sims.enum).insertionSort (rankRel id),
      x.1 < sims.length ∧ sims.getD x.1 0 = x.2 :=
    fun x hx => mem_enum_val (hperm.mem_iff.mp hx)
  have hpw : (((sims.enum).insertionSort (rankRel id)).map Prod.fst).Pairwise
      (fun i j => sims.getD j 0 < sims.getD i 0 ∨
        (sims.getD i 0 = sims.getD j 0 ∧ i ≤ j)) := by
    rw [List.pairwise_map]
    apply List.Pairwise.imp_of_mem ?_
      (List.sorted_insertionSort (rankRel id) sims.enum)
    intro a b ha hb hr
    have hva := (hmemval a ha).2
    have hvb := (hmemval b hb).2
    rcases hr with h | ⟨h, hi⟩
    · left
      rw [hva, hvb]
      exact h
    · right
      rw [hva, hvb]
      exact ⟨h, hi⟩
  refine ⟨?_, ?_, ?_, ?_⟩
  · unfold stableTopkDesc
    rw [List.length_take, hlenf]
  · exact (List.take_sublist _ _).nodup hnd
  · exact hpw.sublist (List.take_sublist _ _)
  · intro i hi
    have hi2 : i ∈ ((sims.enum).insertionSort (rankRel id)).map Prod.fst :=
      List.mem_of_mem_take hi
    rcases List.mem_map.mp hi2 with ⟨x, hx, hxi⟩
    subst hxi
    exact (hmemval x hx).1

theorem stableTopkDesc_full_perm (sims : List ℚ) (k : ℕ) (hk : sims.length ≤ k) :
    List.Perm (stableTopkDesc sims k) (List.range sims.length) := by
  have hperm : List.Perm ((sims.enum).insertionSort (rankRel id)) sims.enum :=
    List.perm_insertionSort _ _
  have hfst : List.Perm (((sims.enum).insertionSort (rankRel id)).map Prod.fst)
      (List.range sims.length) := by
    have := hperm.map Prod.fst
    rwa [List.enum_map_fst] at this
  have hlenf : (((sims.enum).insertionSort (rankRel id)).map Prod.fst).length =
      sims.length := by
    rw [List.length_map, hperm.length_eq, List.enum_length]
  unfold stableTopkDesc
  rw [List.take_of_length_le (by rw [hlenf]; exact hk)]
  exact hfst

theorem argsortAsc_spec (sims : List ℚ) :
    List.Perm (argsortAsc sims) (List.range sims.length) ∧
    (argsortAsc sims).Nodup ∧
    (argsortAsc sims).Pairwise (fun i j =>
      sims.getD i 0 < sims.getD j 0 ∨ (sims.getD i 0 = sims.getD j 0 ∧ i ≤ j)) ∧
    (∀ i ∈ argsortAsc sims, i < sims.length) ∧
    (argsortAsc sims).length = sims.length := by
  have hperm : List.Perm ((sims.enum).insertionSort ascRankRel) sims.enum :=
    List.perm_insertionSort _ _
  have hfst : List.Perm (((sims.enum).insertionSort ascRankRel).map Prod.fst)
      (List.range sims.length) := by
    have := hperm.map Prod.fst
    rwa [List.enum_map_fst] at this
  have hmemval : ∀ x ∈ (sims.enum).insertionSort ascRankRel,
      x.1 < sims.length ∧ sims.getD x.1 0 = x.2 :=
    fun x hx => mem_enum_val (hperm.mem_iff.mp hx)
  refine ⟨hfst, hfst.nodup_iff.mpr (List.nodup_range sims.length), ?_, ?_, ?_⟩
  · unfold argsortAsc
    rw [List.pairwise_map]
    apply List.Pairwise.imp_of_mem ?_
      (List.sorted_insertionSort ascRankRel sims.enum)
    intro a b ha hb hr
    have hva := (hmemval a ha).2
    have hvb := (hmemval b hb).2
    rcases hr with h | ⟨h, hi⟩
    · left
      rw [hva, hvb]
      exact h
    · right
      rw [hva, hvb]
      exact ⟨h, hi⟩
  · intro i hi
    rcases List.mem_map.mp hi with ⟨x, hx, hxi⟩
    subst hxi
    exact (hmemval x hx).1
  · exact hfst.length_eq.trans (List.length_range sims.length)

/-! ## The per-id score dictionaries built by `hybrid_search` -/

theorem range_map_getD_id (movies : List RMovie) :
    (List.range movies.length).map (fun i => (movies.getD i default).id) =
      movies.map RMovie.id := by
  have h1 : (List.range movies.length).map (fun i => (movies.getD i default).id) =
      ((List.range movies.length).map (fun i => movies.getD i default)).map
        RMovie.id := by
    rw [List.map_map]
    rfl
  rw [h1, map_getD_range]

theorem scoreDict_getKV_of_perm_entries (movies : List RMovie) (vals : List ℚ)
    (P : List ℕ) (hperm : List.Perm P (List.range movies.length))
    (hnod : (movies.map RMovie.id).Nodup) (i : ℕ) (hi : i < movies.length) :
    getKV (scoreDict (P.map (fun j => (movies.getD j default, vals.getD j 0))))
      ((movies.getD i default).id) = vals.getD i 0 := by
  have hkeys : ((P.map (fun j => (movies.getD j default, vals.getD j 0))).map
      (fun p => p.1.id)) = P.map (fun j => (movies.getD j default).id) := by
    rw [List.map_map]
    rfl
  have hkeysperm : List.Perm (P.map (fun j => (movies.getD j default).id))
      (movies.map RMovie.id) := by
    have := hperm.map (fun j => (movies.getD j default).id)
    rwa [range_map_getD_id] at this
  have hkeysnd : ((P.map (fun j => (movies.getD j default, vals.getD j 0))).map
      (fun p => p.1.id)).Nodup := by
    rw [hkeys]
    exact hkeysperm.nodup_iff.mpr hnod
  have hdict : scoreDict (P.map (fun j => (movies.getD j default, vals.getD j 0))) =
      (P.map (fun j => (movies.getD j default, vals.getD j 0))).map
        (fun p => (p.1.id, p.2)) := by
    unfold scoreDict
    have := foldl_setKV_eq_map (fun p : RMovie × ℚ => p.1.id) Prod.snd
      (P.map (fun j => (movies.getD j default, vals.getD j 0))) [] hkeysnd
      (by intro x _ p hp; simp at hp)
    rw [this]
    rfl
  rw [hdict]
  have hpairs : ((P.map (fun j => (movies.getD j default, vals.getD j 0))).map
      (fun p => (p.1.id, p.2))) =
      P.map (fun j => ((movies.getD j default).id, vals.getD j 0)) := by
    rw [List.map_map]
    rfl
  rw [hpairs]
  unfold getKV
  rw [lookup_eq_of_mem_nodupkeys _ ?_ _ (vals.getD i 0) ?_]
  · rfl
  · have hk2 : (P.map (fun j => ((movies.getD j default).id, vals.getD j 0))).map
        Prod.fst = P.map (fun j => (movies.getD j default).id) := by
      rw [List.map_map]
      rfl
    rw [hk2]
    exact hkeysperm.nodup_iff.mpr hnod
  · have hiP : i ∈ P := hperm.mem_iff.mpr (List.mem_range.mpr hi)
    exact List.mem_map_of_mem _ hiP

theorem emotionSims_length (cos : List ℚ → List ℚ → ℚ) (movies : List RMovie)
    (target : List (String × ℚ)) :
    (emotionSims cos movies target).length = movies.length := by
  unfold emotionSims
  rw [List.length_map]

theorem emotionSims_getD (cos : List ℚ → List ℚ → ℚ) (movies : List RMovie)
    (target : List (String × ℚ)) (i : ℕ) (hi : i < movies.length) :
    (emotionSims cos movies target).getD i 0 =
      cos (targetVector target) (movieVector (movies.getD i default)) := by
  unfold emotionSims
  exact getD_map_of_lt movies _ i hi 0 default

theorem semantic_search_full (semSims : List ℚ) (movies : List RMovie)
    (hlen : semSims.length = movies.length) :
    semantic_search semSims movies movies.length =
      (stableTopkDesc semSims (min movies.length movies.length)).map
        (fun i => (movies.getD i default, semSims.getD i 0)) := rfl

theorem semantic_topk_full_perm (semSims : List ℚ) (movies : List RMovie)
    (hlen : semSims.length = movies.length) :
    List.Perm (stableTopkDesc semSims (min movies.length movies.length))
      (List.range movies.length) := by
  have h := stableTopkDesc_full_perm semSims (min movies.length movies.length)
    (by rw [hlen, Nat.min_self])
  rwa [hlen] at h

theorem emotion_search_nonzero (cos : List ℚ → List ℚ → ℚ) (movies : List RMovie)
    (target : List (String × ℚ)) (topk : ℕ)
    (htv : (targetVector target).all (fun x => x == 0) = false) :
    emotion_search cos movies target topk =
      ((lastSlice (argsortAsc (emotionSims cos movies target))
          (min topk movies.length)).reverse).map
        (fun i => (movies.getD i default, (emotionSims cos movies target).getD i 0)) := by
  unfold emotion_search
  rw [if_neg (by rw [htv]; exact Bool.false_ne_true)]

theorem emotion_order_full_perm (cos : List ℚ → List ℚ → ℚ) (movies : List RMovie)
    (target : List (String × ℚ)) :
    List.Perm ((lastSlice (argsortAsc (emotionSims cos movies target))
        (min movies.length movies.length)).reverse)
      (List.range movies.length) := by
  have hlen : (argsortAsc (emotionSims cos movies target)).length = movies.length := by
    rw [(argsortAsc_spec (emotionSims cos movies target)).2.2.2.2, emotionSims_length]
  have hslice : lastSlice (argsortAsc (emotionSims cos movies target))
      (min movies.length movies.length) = argsortAsc (emotionSims cos movies target) := by
    rw [Nat.min_self, ← hlen]
    exact lastSlice_full _
  rw [hslice]
  have h2 := (argsortAsc_spec (emotionSims cos movies target)).1
  rw [emotionSims_length] at h2
  exact (List.reverse_perm _).trans h2

theorem hybridCombined_eq (semSims : List ℚ) (cos : List ℚ → List ℚ → ℚ)
    (movies : List RMovie) (target : List (String × ℚ)) (w1 w2 : ℚ)
    (hnod : (movies.map RMovie.id).Nodup) :
    hybridCombined semSims cos movies target w1 w2 =
      movies.map (fun m => (m.id,
        getKV (scoreDict (semantic_search semSims movies movies.length)) m.id * w1 +
        getKV (scoreDict (emotion_search cos movies target movies.length)) m.id * w2)) := by
  unfold hybridCombined
  have := foldl_setKV_eq_map RMovie.id
    (fun m => getKV (scoreDict (semantic_search semSims movies movies.length)) m.id * w1 +
      getKV (scoreDict (emotion_search cos movies target movies.length)) m.id * w2)
    movies [] hnod (by intro x _ p hp; simp at hp)
  rw [this]
  rfl

/-- Claim C3: under the data-model invariant that record ids are distinct,
and for any target whose mapped vector is not all-zero, every (record,
score) pair returned by `hybrid_search` carries exactly
`semantic_similarity * semantic_weight + emotion_similarity * emotion_weight`,
where the semantic similarity is the record's entry in the full
`semantic_search` pass and the emotion similarity is the `cos` similarity
of the target vector with the record's emotion vector from the full
`emotion_search` pass. -/
theorem c3_hybrid_weighted_sum (semSims : List ℚ) (cos : List ℚ → List ℚ → ℚ)
    (movies : List RMovie) (target : List (String × ℚ)) (w1 w2 : ℚ) (topk : ℕ)
    (hlen : semSims.length = movies.length)
    (hnod : (movies.map RMovie.id).Nodup)
    (htv : (targetVector target).all (fun x => x == 0) = false) :
    ∀ p ∈ hybrid_search semSims cos movies target w1 w2 topk,
      ∃ i, i < movies.length ∧ p.1 = movies.getD i default ∧
        p.2 = semSims.getD i 0 * w1 +
          cos (targetVector target) (movieVector p.1) * w2 := by
  intro p hp
  unfold hybrid_search at hp
  rcases List.mem_filterMap.mp hp with ⟨q, hq, hfq⟩
  have hq2 : q ∈ stableSortDesc (fun p => p.2)
      (hybridCombined semSims cos movies target w1 w2) := List.mem_of_mem_take hq
  have hq3 : q ∈ hybridCombined semSims cos movies target w1 w2 :=
    (stableSortDesc_perm _ _).mem_iff.mp hq2
  rw [hybridCombined_eq semSims cos movies target w1 w2 hnod] at hq3
  rcases List.mem_map.mp hq3 with ⟨m0, hm0, hqm⟩
  rcases List.mem_iff_getElem.mp hm0 with ⟨i, hi, him⟩
  have hm0d : m0 = movies.getD i default := by
    rw [List.getD_eq_getElem movies default hi, him]
  -- resolve the id back to the record
  have hfind : movies.find? (fun m => m.id = q.1) = some m0 := by
    have h := find?_key_eq RMovie.id movies hnod m0 hm0
    rw [← hqm]
    exact h
  rw [hfind] at hfq
  rw [Option.map_some'] at hfq
  -- identify the two dictionary values
  have hsem : getKV (scoreDict (semantic_search semSims movies movies.length)) m0.id =
      semSims.getD i 0 := by
    rw [hm0d, semantic_search_full semSims movies hlen]
    exact scoreDict_getKV_of_perm_entries movies semSims _
      (semantic_topk_full_perm semSims movies hlen) hnod i hi
  have hemo : getKV (scoreDict (emotion_search cos movies target movies.length)) m0.id =
      cos (targetVector target) (movieVector m0) := by
    rw [hm0d, emotion_search_nonzero cos movies target movies.length htv]
    rw [scoreDict_getKV_of_perm_entries movies (emotionSims cos movies target) _
      (emotion_order_full_perm cos movies target) hnod i hi]
    exact emotionSims_getD cos movies target i hi
  have hpq : p = (m0, q.2) := (Option.some.inj hfq).symm
  refine ⟨i, hi, ?_, ?_⟩
  · rw [hpq, ← hm0d]
  · rw [hpq]
    show q.2 = semSims.getD i 0 * w1 + cos (targetVector target) (movieVector (m0, q.2).1) * w2
    show q.2 = semSims.getD i 0 * w1 + cos (targetVector target) (movieVector m0) * w2
    rw [← hqm]
    show getKV (scoreDict (semantic_search semSims movies movies.length)) m0.id * w1 +
        getKV (scoreDict (emotion_search cos movies target movies.length)) m0.id * w2 =
      semSims.getD i 0 * w1 + cos (targetVector target) (movieVector m0) * w2
    rw [hsem, hemo]

unseal Rat.add Rat.mul Rat.inv in
/-- Concrete instance of C3: two records, semantic similarities 1/2 and 1/4,
weights 0.7/0.3; the joy-only record comes back carrying exactly
1/2 * 0.7 + 1 * 0.3 = 13/20. -/
theorem c3_hybrid_weighted_sum_witness :
    ∃ i, i < ([cMovie0, cMovie2] : List RMovie).length ∧
      (cMovie0, (13 : ℚ)/20).1 = ([cMovie0, cMovie2] : List RMovie).getD i default ∧
      (cMovie0, (13 : ℚ)/20).2 =
        ([1/2, 1/4] : List ℚ).getD i 0 * (7/10) +
          dotQ (targetVector [(("joy"), 1)]) (movieVector (cMovie0, (13 : ℚ)/20).1) * (3/10) :=
  c3_hybrid_weighted_sum [1/2, 1/4] dotQ [cMovie0, cMovie2] [(("joy"), 1)]
    (7/10) (3/10) 2 (by decide) (by decide) (by decide)
    (cMovie0, 13/20) (by decide)

/-! ## Stability of the Python sort model with respect to input positions -/

theorem mem_enum_getD {α : Type} (l : List α) (x : ℕ × α) (h : x ∈ l.enum) :
    x.1 < l.length ∧ l.getD x.1 x.2 = x.2 := by
  have hx := List.mem_enum_iff_getElem?.mp h
  rcases List.getElem?_eq_some_iff.mp hx with ⟨hlt, _⟩
  refine ⟨hlt, ?_⟩
  rw [List.getD_eq_getElem?_getD, hx]
  rfl

theorem indexOf_map_eq {α β : Type} [DecidableEq α] [DecidableEq β]
    (f : α → β) : ∀ (l : List α), ((l.map f).Nodup) → ∀ x ∈ l,
      (l.map f).indexOf (f x) = l.indexOf x := by
  intro l
  induction l with
  | nil => intro _ x hx; simp at hx
  | cons a t ih =>
    intro hnd x hx
    rw [List.map_cons] at hnd
    by_cases hxa : x = a
    · subst hxa
      rw [List.map_cons, List.indexOf_cons_self, List.indexOf_cons_self]
    · have hxt : x ∈ t := (List.mem_cons.mp hx).resolve_left hxa
      have hfx : f x ≠ f a := by
        intro hcon
        apply (List.nodup_cons.mp hnd).1
        rw [← hcon]
        exact List.mem_map_of_mem f hxt
      rw [List.map_cons, List.indexOf_cons_ne _ hfx.symm,
        List.indexOf_cons_ne _ (Ne.symm hxa), ih hnd.of_cons x hxt]

theorem stableSortDesc_pairwise_stable {α : Type} [DecidableEq α] (key : α → ℚ)
    (l : List α) (hnd : l.Nodup) :
    (stableSortDesc key l).Pairwise (fun a b =>
      key b < key a ∨ (key a = key b ∧ l.indexOf a ≤ l.indexOf b)) := by
  unfold stableSortDesc
  rw [List.pairwise_map]
  have hperm : List.Perm ((l.enum).insertionSort (rankRel key)) l.enum :=
    List.perm_insertionSort _ _
  apply List.Pairwise.imp_of_mem ?_
    (List.sorted_insertionSort (rankRel key) l.enum)
  intro a b ha hb hr
  have hma := mem_enum_getD l a (hperm.mem_iff.mp ha)
  have hmb := mem_enum_getD l b (hperm.mem_iff.mp hb)
  have hia : l.indexOf a.2 = a.1 := by
    have h := nodup_indexOf_getD l hnd a.1 hma.1 a.2
    rwa [hma.2] at h
  have hib : l.indexOf b.2 = b.1 := by
    have h := nodup_indexOf_getD l hnd b.1 hmb.1 b.2
    rwa [hmb.2] at h
  rcases hr with h | ⟨h, hi⟩
  · exact Or.inl h
  · exact Or.inr ⟨h, by rw [hia, hib]; exact hi⟩

unseal Rat.add Rat.mul Rat.inv in
/-- Counterexample to claim C5: with two records carrying identical
emotion profiles (so every similarity ties), `emotion_search` returns the
tie in REVERSE input order (the `argsort()[-k:][::-1]` slice reverses the
stable ascending order), and with `top_k = 0` the `[-0:]` slice selects
the whole array, so the result length is the full record count instead of
0. -/
theorem c5_ranking_order_counterexample :
    ¬ tiesByInputOrder [cMovie0, cMovie1]
        (emotion_search dotQ [cMovie0, cMovie1] [(("joy"), 1)] 2) ∧
    (emotion_search dotQ [cMovie0, cMovie1] [(("joy"), 1)] 0).length = 2 := by
  decide

/-- Claim C5 (amended): under the data-model invariant that record ids are
distinct, and for a target whose mapped vector is not all-zero:
`semantic_search` returns min(top-K, #records) pairs sorted by score
descending with ties in input order; `emotion_search` sorts by score
descending but breaks ties in REVERSE input order, returns
min(top-K, #records) pairs when top-K is at least 1, and returns ALL
records when top-K is 0 (the `[-0:]` slice); `hybrid_search` returns
min(top-K, #records) pairs sorted by combined score descending with ties
in input order. -/
theorem c5_ranking_order_amended (semSims : List ℚ) (cos : List ℚ → List ℚ → ℚ)
    (movies : List RMovie) (target : List (String × ℚ)) (w1 w2 : ℚ) (topk : ℕ)
    (hlen : semSims.length = movies.length)
    (hnod : (movies.map RMovie.id).Nodup)
    (htv : (targetVector target).all (fun x => x == 0) = false) :
    ((semantic_search semSims movies topk).length = min topk movies.length ∧
      tiesByInputOrder movies (semantic_search semSims movies topk)) ∧
    ((1 ≤ topk →
        (emotion_search cos movies target topk).length = min topk movies.length) ∧
      (topk = 0 →
        (emotion_search cos movies target topk).length = movies.length) ∧
      (emotion_search cos movies target topk).Pairwise (fun a b =>
        b.2 < a.2 ∨ (a.2 = b.2 ∧ movies.indexOf b.1 ≤ movies.indexOf a.1))) ∧
    ((hybrid_search semSims cos movies target w1 w2 topk).length =
        min topk movies.length ∧
      tiesByInputOrder movies (hybrid_search semSims cos movies target w1 w2 topk)) := by
  have hmovnd : movies.Nodup := List.Nodup.of_map RMovie.id hnod
  have hE := emotion_search_nonzero cos movies target topk htv
  have hAlen : (argsortAsc (emotionSims cos movies target)).length = movies.length := by
    rw [(argsortAsc_spec (emotionSims cos movies target)).2.2.2.2, emotionSims_length]
  have hC := hybridCombined_eq semSims cos movies target w1 w2 hnod
  refine ⟨⟨?_, ?_⟩, ⟨?_, ?_, ?_⟩, ?_, ?_⟩
  · -- semantic length
    show ((stableTopkDesc semSims (min topk movies.length)).map
      (fun i => (movies.getD i default, semSims.getD i 0))).length = min topk movies.length
    rw [List.length_map, (stableTopkDesc_spec semSims (min topk movies.length)).1, hlen]
    omega
  · -- semantic ties by input order
    unfold tiesByInputOrder semantic_search
    rw [List.pairwise_map]
    apply List.Pairwise.imp_of_mem ?_
      (stableTopkDesc_spec semSims (min topk movies.length)).2.2.1
    intro i j hi hj hr
    have hib : i < movies.length := by
      have h := (stableTopkDesc_spec semSims (min topk movies.length)).2.2.2 i hi
      rwa [hlen] at h
    have hjb : j < movies.length := by
      have h := (stableTopkDesc_spec semSims (min topk movies.length)).2.2.2 j hj
      rwa [hlen] at h
    show semSims.getD j 0 < semSims.getD i 0 ∨
      (semSims.getD i 0 = semSims.getD j 0 ∧
        movies.indexOf (movies.getD i default) ≤ movies.indexOf (movies.getD j default))
    rcases hr with h | ⟨h, hij⟩
    · exact Or.inl h
    · refine Or.inr ⟨h, ?_⟩
      rw [nodup_indexOf_getD movies hmovnd i hib default,
        nodup_indexOf_getD movies hmovnd j hjb default]
      exact hij
  · -- emotion length, top-K at least 1
    intro htk
    rw [hE, List.length_map, List.length_reverse]
    rcases Nat.eq_zero_or_pos movies.length with hm | hm
    · have hk0 : min topk movies.length = 0 := by omega
      rw [hk0, lastSlice_zero, hAlen]
      omega
    · have hk1 : 1 ≤ min topk movies.length := by omega
      rw [lastSlice_length_of_pos _ _ hk1, hAlen]
      omega
  · -- emotion length, top-K = 0
    intro htk
    rw [hE, List.length_map, List.length_reverse, htk]
    have hk0 : min 0 movies.length = 0 := by omega
    rw [hk0, lastSlice_zero, hAlen]
  · -- emotion ordering: descending, ties in reverse input order
    rw [hE, List.pairwise_map, List.pairwise_reverse]
    apply List.Pairwise.imp_of_mem ?_
      (List.Pairwise.sublist (lastSlice_sublist _ _)
        (argsortAsc_spec (emotionSims cos movies target)).2.2.1)
    intro i j hi hj hr
    have hib : i < movies.length := by
      have h := (argsortAsc_spec (emotionSims cos movies target)).2.2.2.1 i
        ((lastSlice_sublist _ _).subset hi)
      rwa [emotionSims_length] at h
    have hjb : j < movies.length := by
      have h := (argsortAsc_spec (emotionSims cos movies target)).2.2.2.1 j
        ((lastSlice_sublist _ _).subset hj)
      rwa [emotionSims_length] at h
    show (emotionSims cos movies target).getD i 0 <
        (emotionSims cos movies target).getD j 0 ∨
      ((emotionSims cos movies target).getD j 0 =
          (emotionSims cos movies target).getD i 0 ∧
        movies.indexOf (movies.getD i default) ≤ movies.indexOf (movies.getD j default))
    rcases hr with h | ⟨h, hij⟩
    · exact Or.inl h
    · refine Or.inr ⟨h.symm, ?_⟩
      rw [nodup_indexOf_getD movies hmovnd i hib default,
        nodup_indexOf_getD movies hmovnd j hjb default]
      exact hij
  · -- hybrid length
    have hresolve : ∀ q ∈ (stableSortDesc (fun p : ℕ × ℚ => p.2)
        (hybridCombined semSims cos movies target w1 w2)).take topk,
        (movies.find? (fun m => m.id = q.1)).map (fun m => (m, q.2)) =
          some ((movies.find? (fun m => m.id = q.1)).getD default, q.2) := by
      intro q hq
      have hqC : q ∈ hybridCombined semSims cos movies target w1 w2 :=
        (stableSortDesc_perm _ _).mem_iff.mp (List.mem_of_mem_take hq)
      rw [hC] at hqC
      rcases List.mem_map.mp hqC with ⟨m, hm, hqm⟩
      have hfq : movies.find? (fun mm => mm.id = q.1) = some m := by
        rw [← hqm]
        exact find?_key_eq RMovie.id movies hnod m hm
      rw [hfq]
      rfl
    show (((stableSortDesc (fun p : ℕ × ℚ => p.2)
        (hybridCombined semSims cos movies target w1 w2)).take topk).filterMap
        (fun p => (movies.find? (fun m => m.id = p.1)).map (fun m => (m, p.2)))).length =
      min topk movies.length
    rw [filterMap_eq_map_of_some _
      (fun q => ((movies.find? (fun m => m.id = q.1)).getD default, q.2)) _ hresolve]
    rw [List.length_map, List.length_take, (stableSortDesc_perm _ _).length_eq,
      hC, List.length_map]
  · -- hybrid ties by input order
    have hCnd : (hybridCombined semSims cos movies target w1 w2).Nodup := by
      apply List.Nodup.of_map Prod.fst
      have hCfst : ((hybridCombined semSims cos movies target w1 w2).map Prod.fst) =
          movies.map RMovie.id := by
        rw [hC, List.map_map]
        rfl
      rw [hCfst]
      exact hnod
    have hresolve : ∀ q ∈ (stableSortDesc (fun p : ℕ × ℚ => p.2)
        (hybridCombined semSims cos movies target w1 w2)).take topk,
        (movies.find? (fun m => m.id = q.1)).map (fun m => (m, q.2)) =
          some ((movies.find? (fun m => m.id = q.1)).getD default, q.2) := by
      intro q hq
      have hqC : q ∈ hybridCombined semSims cos movies target w1 w2 :=
        (stableSortDesc_perm _ _).mem_iff.mp (List.mem_of_mem_take hq)
      rw [hC] at hqC
      rcases List.mem_map.mp hqC with ⟨m, hm, hqm⟩
      have hfq : movies.find? (fun mm => mm.id = q.1) = some m := by
        rw [← hqm]
        exact find?_key_eq RMovie.id movies hnod m hm
      rw [hfq]
      rfl
    have hkey : ∀ q ∈ (stableSortDesc (fun p : ℕ × ℚ => p.2)
        (hybridCombined semSims cos movies target w1 w2)).take topk,
        @List.indexOf (ℕ × ℚ) instBEqOfDecidableEq q
            (hybridCombined semSims cos movies target w1 w2) =
          movies.indexOf ((movies.find? (fun m => m.id = q.1)).getD default) := by
      intro q hq
      have hqC : q ∈ hybridCombined semSims cos movies target w1 w2 :=
        (stableSortDesc_perm _ _).mem_iff.mp (List.mem_of_mem_take hq)
      rw [hC] at hqC
      rcases List.mem_map.mp hqC with ⟨m, hm, hqm⟩
      have hfq : movies.find? (fun mm => mm.id = q.1) = some m := by
        rw [← hqm]
        exact find?_key_eq RMovie.id movies hnod m hm
      have hgd : (movies.find? (fun mm => mm.id = q.1)).getD default = m := by
        rw [hfq]
        rfl
      rw [hgd, ← hqm, hC]
      have h2 := hCnd
      rw [hC] at h2
      exact indexOf_map_eq (fun mm : RMovie => (mm.id,
        getKV (scoreDict (semantic_search semSims movies movies.length)) mm.id * w1 +
          getKV (scoreDict (emotion_search cos movies target movies.length)) mm.id * w2))
        movies (by exact h2) m hm
    unfold tiesByInputOrder hybrid_search
    rw [filterMap_eq_map_of_some _
      (fun q => ((movies.find? (fun m => m.id = q.1)).getD default, q.2)) _ hresolve]
    rw [List.pairwise_map]
    apply List.Pairwise.imp_of_mem ?_
      (List.Pairwise.sublist (List.take_sublist topk _)
        (stableSortDesc_pairwise_stable (fun p : ℕ × ℚ => p.2) _ hCnd))
    intro q1 q2 h1 h2 hr
    show q2.2 < q1.2 ∨
      (q1.2 = q2.2 ∧
        movies.indexOf ((movies.find? (fun m => m.id = q1.1)).getD default) ≤
          movies.indexOf ((movies.find? (fun m => m.id = q2.1)).getD default))
    rcases hr with h | ⟨h, hidx⟩
    · exact Or.inl h
    · refine Or.inr ⟨h, ?_⟩
      rw [← hkey q1 h1, ← hkey q2 h2]
      exact hidx

unseal Rat.add Rat.mul Rat.inv in
/-- Concrete instance of the amended C5 on a two-record catalog with
distinct ids, similarities 1/2 and 1/4, weights 0.7/0.3 and top-K 1. -/
theorem c5_ranking_order_amended_witness :
    ((semantic_search [1/2, 1/4] [cMovie0, cMovie2] 1).length =
        min 1 ([cMovie0, cMovie2] : List RMovie).length ∧
      tiesByInputOrder [cMovie0, cMovie2]
        (semantic_search [1/2, 1/4] [cMovie0, cMovie2] 1)) ∧
    ((1 ≤ 1 →
        (emotion_search dotQ [cMovie0, cMovie2] [(("joy"), 1)] 1).length =
          min 1 ([cMovie0, cMovie2] : List RMovie).length) ∧
      ((1 : ℕ) = 0 →
        (emotion_search dotQ [cMovie0, cMovie2] [(("joy"), 1)] 1).length =
          ([cMovie0, cMovie2] : List RMovie).length) ∧
      (emotion_search dotQ [cMovie0, cMovie2] [(("joy"), 1)] 1).Pairwise (fun a b =>
        b.2 < a.2 ∨ (a.2 = b.2 ∧
          ([cMovie0, cMovie2] : List RMovie).indexOf b.1 ≤
            ([cMovie0, cMovie2] : List RMovie).indexOf a.1))) ∧
    ((hybrid_search [1/2, 1/4] dotQ [cMovie0, cMovie2] [(("joy"), 1)]
          (7/10) (3/10) 1).length =
        min 1 ([cMovie0, cMovie2] : List RMovie).length ∧
      tiesByInputOrder [cMovie0, cMovie2]
        (hybrid_search [1/2, 1/4] dotQ [cMovie0, cMovie2] [(("joy"), 1)]
          (7/10) (3/10) 1)) :=
  c5_ranking_order_amended [1/2, 1/4] dotQ [cMovie0, cMovie2] [(("joy"), 1)]
    (7/10) (3/10) 1 (by decide) (by decide) (by decide)
